import Mathlib

/-!
# Verification of the ACE playbook engine

A shallow embedding, in Lean 4, of the core components of the ACE
(Agentic Context Engineering) framework: the `Playbook` store
(`src/playbook.ts`), the `Curator` (`src/core/curator.ts`), the
`Reflector` (`src/core/reflector.ts`) and the `Generator`
(`src/core/generator.ts`).

Modelling conventions:
* JavaScript strings are Lean `String`s; `trim`, `toLowerCase` and
  `includes` are re-implemented below over character lists so that they
  compute by `decide`/`rfl`.
* JavaScript numbers used for scores, confidences and similarities are
  modelled as `ℚ`; `Math.sqrt` (a transcendental operation on floats)
  is abstracted as an explicit `sqrtQ : ℚ → ℚ` parameter threaded into
  the two functions that use it.
* The `Map<string, Bullet>` backing the playbook is modelled as a list
  of bullets in insertion order; `Map.set` replaces an existing key in
  place and appends a fresh key at the end, `Map.delete` removes it.
* `uuidv4()` is modelled by passing the generated id (or a stream
  `Nat → String` of generated ids) explicitly.
* LLM gateway calls return free text which the code immediately parses;
  the gateway together with `JSON.parse` is modelled as an oracle, and
  the deterministic post-parse processing (defaults, clamping, fallback
  branches) is embedded from the source.
* Thrown exceptions are `Except`; `try`/`catch` is explicit matching.
* Dates are modelled as millisecond timestamps (`Nat`).
-/

namespace ACE

/-- JS `String.prototype.toLowerCase` (character-wise lowering). -/
def jsToLower (s : String) : String := ⟨s.data.map Char.toLower⟩

/-- JS `String.prototype.trim`: strip leading and trailing whitespace. -/
def jsTrim (s : String) : String :=
  ⟨((s.data.dropWhile Char.isWhitespace).reverse.dropWhile Char.isWhitespace).reverse⟩

/-- JS `String.prototype.split(sep)` on character lists. -/
def splitOnChar (sep : Char) : List Char → List (List Char)
  | [] => [[]]
  | c :: rest =>
    match splitOnChar sep rest with
    | [] => [[c]]
    | h :: t => if c = sep then [] :: h :: t else (c :: h) :: t

/-- Character-wise lowering on character lists. -/
def jsToLowerChars (l : List Char) : List Char := l.map Char.toLower

/-- `trim` on character lists. -/
def jsTrimChars (l : List Char) : List Char :=
  ((l.dropWhile Char.isWhitespace).reverse.dropWhile Char.isWhitespace).reverse

/-- JS `haystack.includes(needle)` on character lists. -/
def containsChars (hay needle : List Char) : Bool :=
  needle.isPrefixOf hay ||
    match hay with
    | [] => false
    | _ :: t => containsChars t needle

/-- JS string-falsy-or: `s || d` for strings (the empty string is falsy). -/
def jsOrStr (s : String) (d : String) : String := if s = "" then d else s

/-- JS `o || d` where the left operand is an optional string
(`undefined` and `""` are both falsy). -/
def jsOrOptStr (s : Option String) (d : String) : String :=
  match s with
  | none => d
  | some v => jsOrStr v d

/-- JS `o || d` for an optional number (`undefined` and `0` are falsy). -/
def jsOrQ (o : Option ℚ) (d : ℚ) : ℚ :=
  match o with
  | none => d
  | some v => if v = 0 then d else v

/-- JS `o || d` for an optional natural number (`undefined` and `0` are falsy). -/
def jsOrNat (o : Option Nat) (d : Nat) : Nat :=
  match o with
  | none => d
  | some v => if v = 0 then d else v

/-! ## Data model (`src/core/types.ts`) -/

/-- `Bullet.metadata`: creation stamp, feedback counters, optional last-use
stamp and optional embedding vector. -/
structure BulletMetadata where
  created : Nat
  helpful_count : Nat
  harmful_count : Nat
  last_used : Option Nat := none
  embedding : Option (List ℚ) := none
deriving Repr, DecidableEq

/-- `Partial<Bullet['metadata']>`: each field may be absent. -/
structure MetadataOverride where
  created : Option Nat := none
  helpful_count : Option Nat := none
  harmful_count : Option Nat := none
  last_used : Option Nat := none
  embedding : Option (List ℚ) := none
deriving Repr, DecidableEq

/-- JS object spread `{...base, ...override}` on metadata: a field present
in the override wins, otherwise the base field is kept. -/
def mergeMeta (base : BulletMetadata) (m : MetadataOverride) : BulletMetadata where
  created := m.created.getD base.created
  helpful_count := m.helpful_count.getD base.helpful_count
  harmful_count := m.harmful_count.getD base.harmful_count
  last_used := m.last_used <|> base.last_used
  embedding := m.embedding <|> base.embedding

/-- A context bullet.  The TS field `section` is called `sectionName`
here because `section` is a Lean keyword. -/
structure Bullet where
  id : String
  sectionName : String
  content : String
  metadata : BulletMetadata
deriving Repr, DecidableEq

/-- `Partial<Bullet>`: the `updates` payload of an UPDATE operation. -/
structure BulletUpdates where
  id : Option String := none
  sectionName : Option String := none
  content : Option String := none
  metadata : Option MetadataOverride := none
deriving Repr, DecidableEq

/-- `DeltaOperation.type`. -/
inductive DeltaType | ADD | UPDATE | DELETE
deriving Repr, DecidableEq

/-- A delta operation `{type, bullet?, bulletId?, updates?}`. -/
structure DeltaOperation where
  type : DeltaType
  bullet : Option Bullet := none
  bulletId : Option String := none
  updates : Option BulletUpdates := none
deriving Repr, DecidableEq

/-! ## The playbook store (`src/core/playbook.ts`) -/

/-- Errors thrown by `Playbook` operations (`PlaybookError` with its
distinct messages). -/
inductive PlaybookError
  /-- "Playbook size limit reached (...)" -/
  | capacity
  /-- "Section and content are required" -/
  | validation
  /-- "Bullet not found: ..." -/
  | notFound (id : String)
  /-- "Embedding vectors must have the same length" -/
  | dimensionMismatch
deriving Repr, DecidableEq

/-- The playbook state: the backing `Map<string, Bullet>` in insertion
order plus the configuration fields the embedded operations read. -/
structure Playbook where
  bullets : List Bullet
  maxPlaybookSize : Nat := 1000
  dedupThreshold : ℚ := 85/100
deriving Repr, DecidableEq

/-- `Map.set`: replace the entry with the same key in place, else append. -/
def mapSet : List Bullet → Bullet → List Bullet
  | [], b => [b]
  | x :: xs, b => if x.id = b.id then b :: xs else x :: mapSet xs b

/-- `Map.get`. -/
def mapGet (l : List Bullet) (id : String) : Option Bullet :=
  l.find? (fun x => x.id = id)

/-- `Map.delete`: the remaining entries and whether the key existed. -/
def mapDelete : List Bullet → String → List Bullet × Bool
  | [], _ => ([], false)
  | x :: xs, i =>
    if x.id = i then (xs, true)
    else
      let r := mapDelete xs i
      (x :: r.1, r.2)

/-- `Playbook.addBullet(section, content, metadata?)`.  `gid` is the id
produced by the `uuidv4()` call and `now` the `new Date()` stamp.
Faithful details: the capacity check (`size >= maxPlaybookSize`) runs
first; the validation check is `!section || !content.trim()` — the
section is tested *untrimmed* while the content is tested trimmed; the
stored bullet carries the *trimmed* section and content; counters
default to zero but `metadata` overrides are spread over the defaults. -/
def addBullet (pb : Playbook) (sectionName content : String)
    (metadata : MetadataOverride := {}) (gid : String) (now : Nat) :
    Except PlaybookError (Playbook × Bullet) :=
  if pb.bullets.length ≥ pb.maxPlaybookSize then
    .error .capacity
  else if sectionName = "" ∨ jsTrim content = "" then
    .error .validation
  else
    let b : Bullet :=
      { id := gid
        sectionName := jsTrim sectionName
        content := jsTrim content
        metadata := mergeMeta
          { created := now, helpful_count := 0, harmful_count := 0 } metadata }
    .ok ({ pb with bullets := mapSet pb.bullets b }, b)

/-- `Playbook.getBullet(id)`. -/
def getBullet (pb : Playbook) (id : String) : Option Bullet :=
  mapGet pb.bullets id

/-- `Playbook.updateBullet(id, updates)`: fails when the id is absent,
merges `{...bullet, ...updates, id: bullet.id, metadata: {...}}`, then
validates `!section || !content.trim()` on the merged bullet (note:
the merged values are *not* re-trimmed before storing). -/
def updateBullet (pb : Playbook) (id : String) (updates : BulletUpdates) :
    Except PlaybookError (Playbook × Bullet) :=
  match mapGet pb.bullets id with
  | none => .error (.notFound id)
  | some b =>
    let updated : Bullet :=
      { id := b.id
        sectionName := updates.sectionName.getD b.sectionName
        content := updates.content.getD b.content
        metadata := mergeMeta b.metadata (updates.metadata.getD {}) }
    if updated.sectionName = "" ∨ jsTrim updated.content = "" then
      .error .validation
    else
      .ok ({ pb with bullets := mapSet pb.bullets updated }, updated)

/-- `Playbook.deleteBullet(id)`. -/
def deleteBullet (pb : Playbook) (id : String) : Playbook × Bool :=
  let r := mapDelete pb.bullets id
  ({ pb with bullets := r.1 }, r.2)

/-- `Playbook.updateBulletFeedback(bulletIds, type)`: increment the
matching counter and stamp `last_used` for every id found; unknown ids
are silently skipped.  The JS code mutates the stored objects, which
leaves their map position unchanged. -/
def updateBulletFeedback (pb : Playbook) (bulletIds : List String)
    (helpful : Bool) (now : Nat) : Playbook :=
  bulletIds.foldl (fun acc id =>
    match mapGet acc.bullets id with
    | none => acc
    | some b =>
      let b' : Bullet :=
        { b with metadata :=
            { b.metadata with
              helpful_count :=
                if helpful then b.metadata.helpful_count + 1
                else b.metadata.helpful_count
              harmful_count :=
                if helpful then b.metadata.harmful_count
                else b.metadata.harmful_count + 1
              last_used := some now } }
      { acc with bullets := mapSet acc.bullets b' }) pb

/-- Search result match type. -/
inductive MatchType | exact | substring | embedding
deriving Repr, DecidableEq

/-- `BulletSearchResult`. -/
structure BulletSearchResult where
  bullet : Bullet
  score : ℚ
  match_type : MatchType
deriving Repr, DecidableEq

/-- `BulletSearchOptions`; `none` models an absent (undefined) field, for
which the destructuring defaults `limit = 10`, `use_embeddings = false`,
`min_similarity = 0.5` apply. -/
structure BulletSearchOptions where
  query : String
  limit : Option Nat := none
  use_embeddings : Option Bool := none
  min_similarity : Option ℚ := none
deriving Repr, DecidableEq

/-- The per-bullet scoring step of `Playbook.searchBullets`: exact
(case-insensitive) match scores 1.0, substring match scores
`min(|query|/|content| * 2, 0.9)`.  The embedding branch of the source
is an explicit no-op (base implementation skips embedding search), so
it contributes no result. -/
def scoreBullet (queryLower : String) (b : Bullet) : Option BulletSearchResult :=
  let contentLower := jsToLower b.content
  if contentLower = queryLower then
    some ⟨b, 1, .exact⟩
  else if containsChars contentLower.data queryLower.data then
    some ⟨b, min ((queryLower.length : ℚ) / (contentLower.length : ℚ) * 2) (9/10),
          .substring⟩
  else
    none

/-- The unsorted result list of `searchBullets`: one entry per scoring
bullet, in map-insertion order. -/
def searchCandidates (pb : Playbook) (o : BulletSearchOptions) :
    List BulletSearchResult :=
  pb.bullets.filterMap (scoreBullet (jsToLower o.query))

/-- The JS sort comparator `(a, b) => b.score - a.score` as a
`mergeSort` predicate: `a` may precede `b` iff the comparator is `≤ 0`,
i.e. iff `b.score ≤ a.score`. -/
def searchSortLe (a b : BulletSearchResult) : Bool :=
  decide (b.score ≤ a.score)

/-- `Playbook.searchBullets(options)`: score every bullet, sort by score
descending (JS `Array.prototype.sort` is stable, modelled by
`List.mergeSort`), drop the results below `min_similarity`, truncate to
`limit`. -/
def searchBullets (pb : Playbook) (o : BulletSearchOptions) :
    List BulletSearchResult :=
  let limit := o.limit.getD 10
  let min_similarity := o.min_similarity.getD (1/2)
  let sorted := (searchCandidates pb o).mergeSort searchSortLe
  (sorted.filter (fun r => decide (min_similarity ≤ r.score))).take limit

/-- The result record built by `Playbook.applyDeltas` (the code logs it;
its declared return type is `Promise<void>`). -/
structure DeltaResults where
  added : Nat := 0
  updated : Nat := 0
  deleted : Nat := 0
  errors : Nat := 0
deriving Repr, DecidableEq

/-- One iteration of the `applyDeltas` loop, with the `try`/`catch`
explicit: any failure increments `errors` and the loop continues.
`fresh k` is the id the `k`-th `uuidv4()` call would produce.
* ADD without `bullet` throws (caught → error); otherwise the bullet is
  stored directly — no validation and no capacity check — under
  `bullet.id || uuidv4()`.
* UPDATE without a truthy `bulletId` or without `updates` throws
  (caught); otherwise `updateBullet` runs and its failure is caught.
* DELETE without a truthy `bulletId` throws (caught); a missing id makes
  `deleteBullet` return false, which counts nothing. -/
def applyOneDelta (fresh : Nat → String) (st : Playbook × Nat × DeltaResults)
    (op : DeltaOperation) : Playbook × Nat × DeltaResults :=
  let pb := st.1
  let k := st.2.1
  let res := st.2.2
  match op.type with
  | .ADD =>
    match op.bullet with
    | none => (pb, k, { res with errors := res.errors + 1 })
    | some b =>
      let gen := b.id = ""
      let bid := jsOrStr b.id (fresh k)
      ({ pb with bullets := mapSet pb.bullets { b with id := bid } },
       if gen then k + 1 else k,
       { res with added := res.added + 1 })
  | .UPDATE =>
    match op.bulletId, op.updates with
    | some bid, some u =>
      if bid = "" then (pb, k, { res with errors := res.errors + 1 })
      else
        match updateBullet pb bid u with
        | .ok (pb', _) => (pb', k, { res with updated := res.updated + 1 })
        | .error _ => (pb, k, { res with errors := res.errors + 1 })
    | _, _ => (pb, k, { res with errors := res.errors + 1 })
  | .DELETE =>
    match op.bulletId with
    | some bid =>
      if bid = "" then (pb, k, { res with errors := res.errors + 1 })
      else
        let r := deleteBullet pb bid
        (r.1, k,
         if r.2 then { res with deleted := res.deleted + 1 } else res)
    | none => (pb, k, { res with errors := res.errors + 1 })

/-- The `applyDeltas` loop from an arbitrary intermediate state. -/
def applyDeltasAux (fresh : Nat → String) (st : Playbook × Nat × DeltaResults)
    (ops : List DeltaOperation) : Playbook × Nat × DeltaResults :=
  ops.foldl (applyOneDelta fresh) st

/-- `Playbook.applyDeltas(operations)`: apply in order, catching and
counting each failure.  The returned pair is the final store and the
`results` record the code assembles (and logs; the TS signature itself
is `Promise<void>`, see claim C1). -/
def applyDeltas (fresh : Nat → String) (pb : Playbook)
    (ops : List DeltaOperation) : Playbook × DeltaResults :=
  let r := applyDeltasAux fresh (pb, 0, {}) ops
  (r.1, r.2.2)

/-- `Playbook.export()`. -/
def exportBullets (pb : Playbook) : List Bullet := pb.bullets

/-- `Playbook.import(bullets)`: clear the map, then insert every entry
that passes `!bullet.id || !bullet.section || !bullet.content ||
!bullet.metadata` (falsy test: for a well-typed `Bullet` the `metadata`
test cannot fail, the string tests fail exactly on `""`); invalid
entries are skipped with a warning. -/
def importBullets (pb : Playbook) (bs : List Bullet) : Playbook :=
  { pb with
    bullets := bs.foldl (fun acc b =>
      if b.id = "" ∨ b.sectionName = "" ∨ b.content = "" then acc
      else mapSet acc b) [] }

/-- `Playbook.cosineSimilarity(a, b)`: dimension mismatch throws; a zero
magnitude yields 0; otherwise `dot / (‖a‖ * ‖b‖)`.  `Math.sqrt` is the
abstract parameter `sqrtQ`. -/
def cosineSimilarity (sqrtQ : ℚ → ℚ) (a b : List ℚ) :
    Except PlaybookError ℚ :=
  if a.length ≠ b.length then
    .error .dimensionMismatch
  else
    let dotProduct := ((a.zip b).map (fun p => p.1 * p.2)).sum
    let magnitudeA := sqrtQ ((a.map (fun v => v * v)).sum)
    let magnitudeB := sqrtQ ((b.map (fun v => v * v)).sum)
    if magnitudeA = 0 ∨ magnitudeB = 0 then .ok 0
    else .ok (dotProduct / (magnitudeA * magnitudeB))

/-- `Playbook.findSimilarBullets(embedding, threshold)`: walk every
embedded bullet computing its cosine similarity (a dimension mismatch
anywhere propagates out), keep those `≥ threshold`, and sort them by
similarity descending.  The source re-computes the similarities inside
the sort comparator; the values are cached here, which is equivalent
because `cosineSimilarity` is deterministic. -/
def findSimilarBullets (sqrtQ : ℚ → ℚ) (pb : Playbook) (e : List ℚ)
    (threshold : ℚ) : Except PlaybookError (List Bullet) := do
  let withEmb := pb.bullets.filterMap
    (fun b => b.metadata.embedding.map (fun emb => (b, emb)))
  let sims ← withEmb.foldlM (fun acc p => do
      let s ← cosineSimilarity sqrtQ e p.2
      pure (if threshold ≤ s then acc ++ [(p.1, s)] else acc))
    ([] : List (Bullet × ℚ))
  pure ((sims.mergeSort (fun x y => decide (y.2 ≤ x.2))).map (fun p => p.1))

/-! ## The curator (`src/core/curator.ts`) -/

/-- An insight.  `confidence` is declared as a number in TS but can be
absent at runtime (the unit tests pass `undefined`), hence `Option ℚ`.
The TS field `section` is `sectionName` here. -/
structure Insight where
  observation : String
  lesson : String
  suggested_bullet : String
  confidence : Option ℚ := none
  sectionName : String
deriving Repr, DecidableEq

/-- `CurationOptions` (the LLM sampling options are irrelevant to the
embedded behaviour and omitted). -/
structure CurationOptions where
  minConfidence : Option ℚ := none
  enableDeduplication : Option Bool := none
  dedupThreshold : Option ℚ := none
deriving Repr, DecidableEq

/-- `Curator.filterInsights`: keep the insights with
`(insight.confidence || 0) >= minConfidence`. -/
def filterInsights (insights : List Insight) (minConfidence : ℚ) : List Insight :=
  insights.filter (fun i => decide (minConfidence ≤ jsOrQ i.confidence 0))

/-- The untyped bullet object inside a parsed operation: every field may
be absent (or, for strings, empty — which JS truthiness also rejects). -/
structure RawBullet where
  id : Option String := none
  sectionName : Option String := none
  content : Option String := none
  metadata : Option MetadataOverride := none
deriving Repr, DecidableEq

/-- An operation as it comes out of `JSON.parse`, before
`validateOperation` normalizes it. -/
structure RawOperation where
  type : DeltaType
  bullet : Option RawBullet := none
  bulletId : Option String := none
  updates : Option BulletUpdates := none
deriving Repr, DecidableEq

/-- JS truthiness of an optional string (`undefined` and `""` are falsy). -/
def optStrTruthy (o : Option String) : Bool :=
  match o with
  | none => false
  | some s => s ≠ ""

/-- `Curator.validateOperation(op)`: normalize one parsed operation.
`gid` models the `uuidv4()` call, `now` the `new Date()` stamp.
An ADD with a bullet gets `id || uuidv4()`, `section || 'General'`,
`content || ''` and zeroed default metadata under the bullet's own
metadata spread; an UPDATE with a truthy `bulletId` gets
`updates || {}`; a DELETE with a truthy `bulletId` keeps it.  Any other
operation keeps only its `type` — it is *returned*, not dropped. -/
def validateOperation (gid : String) (now : Nat) (op : RawOperation) :
    DeltaOperation :=
  if h : op.type = .ADD ∧ op.bullet.isSome then
    let rb := op.bullet.get h.2
    { type := op.type
      bullet := some
        { id := jsOrOptStr rb.id gid
          sectionName := jsOrOptStr rb.sectionName "General"
          content := jsOrOptStr rb.content ""
          metadata := mergeMeta
            { created := now, helpful_count := 0, harmful_count := 0 }
            (rb.metadata.getD {}) } }
  else if op.type = .UPDATE ∧ optStrTruthy op.bulletId then
    { type := op.type, bulletId := op.bulletId, updates := some (op.updates.getD {}) }
  else if op.type = .DELETE ∧ optStrTruthy op.bulletId then
    { type := op.type, bulletId := op.bulletId }
  else
    { type := op.type }

/-- The regex `/["']([^"']+)["']/`: the first quoted (single or double)
non-empty run of quote-free characters. -/
def findQuotedAux : List Char → Option (List Char)
  | [] => none
  | c :: rest =>
    if c = '"' ∨ c = '\'' then
      let run := rest.takeWhile (fun d => ¬(d = '"' ∨ d = '\''))
      let after := rest.drop run.length
      if run ≠ [] ∧ after ≠ [] then some run
      else findQuotedAux rest
    else findQuotedAux rest

/-- `Curator.extractOperationsFromText(response)`: the parse fallback.
Every line whose trimmed lower-cased text contains both `add` and
`bullet` and that carries a quoted segment yields an ADD of a fresh
`General` bullet with that quoted content. -/
def extractOperationsFromText (response : String) (fresh : Nat → String)
    (now : Nat) : List DeltaOperation :=
  ((splitOnChar '\n' response.data).foldl
    (fun (acc : List DeltaOperation × Nat) line =>
      let trimmedLower := jsToLowerChars (jsTrimChars line)
      if containsChars trimmedLower "add".data &&
          containsChars trimmedLower "bullet".data then
        match findQuotedAux line with
        | some content =>
          (acc.1 ++ [{ type := .ADD
                       bullet := some
                         { id := fresh acc.2
                           sectionName := "General"
                           content := String.mk content
                           metadata :=
                             { created := now, helpful_count := 0,
                               harmful_count := 0 } } }],
           acc.2 + 1)
        | none => acc
      else acc)
    ([], 0)).1

/-- `Curator.parseOperations(response)`: `parsed = some ops` models a
successful `JSON.parse` whose result has an `operations` array (each
element then runs through `validateOperation` with its own fresh id);
`parsed = none` collapses the two failure modes of the source — a parse
exception or a parsed value without an `operations` array — both of
which fall back to text extraction over the raw response. -/
def parseOperations (responseRaw : String) (parsed : Option (List RawOperation))
    (fresh : Nat → String) (now : Nat) : List DeltaOperation :=
  match parsed with
  | some ops => ops.enum.map (fun p => validateOperation (fresh p.1) now p.2)
  | none => extractOperationsFromText responseRaw fresh now

/-- The dedup recommendation.  An absent or unrecognized value behaves
exactly like `keep_separate` (the `|| 'keep_separate'` default and the
`switch` default both return the operation unchanged), so the model
folds those cases into the `Option` being `none`. -/
inductive Recommendation | merge | update | keep_separate | discard
deriving Repr, DecidableEq

/-- The resolved deduplication assessment (only the recommendation
drives behaviour; the other fields are reasoning text). -/
structure DeduplicationAssessment where
  recommendation : Recommendation
deriving Repr, DecidableEq

/-- `Curator.assessDeduplication`'s outcome: `throwOrUnparsed = true`
models the chat call throwing *or* `JSON.parse` failing, both caught
locally and resolved to `keep_separate`; otherwise the parsed
recommendation (with `|| 'keep_separate'` for an absent one) is used. -/
def resolveAssessment (throwOrUnparsed : Bool) (rec? : Option Recommendation) :
    DeduplicationAssessment :=
  if throwOrUnparsed then { recommendation := .keep_separate }
  else { recommendation := rec?.getD .keep_separate }

/-- The template-string interpolation `${operation.bullet?.content}`:
an absent bullet renders as the text `undefined`. -/
def jsInterpolateContent (op : DeltaOperation) : String :=
  match op.bullet with
  | some b => b.content
  | none => "undefined"

/-- `Curator.handleDeduplication(operation, assessment, similarBullets)`:
`discard` drops the operation; `merge` rewrites it to an UPDATE of the
most-similar bullet concatenating `"existing. candidate"`; `update`
rewrites it to an UPDATE replacing the content; `keep_separate` (and
the `switch` default) keep the ADD unchanged.  The `merge`/`update`
branches fall through to `return operation` when `similarBullets` is
empty (unreachable from the call site, which requires a non-empty
list). -/
def handleDeduplication (op : DeltaOperation) (a : DeduplicationAssessment)
    (similarBullets : List Bullet) : Option DeltaOperation :=
  match a.recommendation with
  | .discard => none
  | .merge =>
    match similarBullets with
    | targetBullet :: _ =>
      let merged := targetBullet.content ++ ". " ++ jsInterpolateContent op
      some { type := .UPDATE
             bulletId := some targetBullet.id
             updates := some { content := some merged } }
    | [] => some op
  | .update =>
    match similarBullets with
    | targetBullet :: _ =>
      some { type := .UPDATE
             bulletId := some targetBullet.id
             updates := some { content := op.bullet.map (fun b => b.content) } }
    | [] => some op
  | .keep_separate => some op

/-- The curator's gateway-and-parser oracle: everything the LLM provider
and `JSON.parse` contribute to one `curate` call. -/
structure CuratorOracle where
  /-- Synthesis chat: `.error` models a thrown `ProviderError`; on
  success, the raw response text and the parsed `operations` array
  (`none` = parse failure or no array → text fallback). -/
  synth : Except Unit (String × Option (List RawOperation))
  /-- Whether `llmProvider.embed` exists. -/
  embedAvailable : Bool
  /-- The embed capability (throwing models an embed failure). -/
  embed : String → Except Unit (List ℚ)
  /-- The `n`-th dedup assessment: whether its chat/parse failed, and the
  parsed recommendation. -/
  assessFailed : Nat → Bool
  assessRec : Nat → Option Recommendation

/-- `Curator.processAddOperation(operation, options)`.  Returns the
surviving operation (if any), the number of assessment chat calls made,
the number of embed calls made, and the next assessment index.
Faithful flow: a missing bullet returns the operation untouched;
deduplication runs only under `options.enableDeduplication &&
llmProvider.embed`; the whole embed/findSimilar/assess block is wrapped
in a `try` whose `catch` proceeds with the add. -/
def processAddOperation (sqrtQ : ℚ → ℚ) (pb : Playbook) (o : CuratorOracle)
    (opts : CurationOptions) (aIdx : Nat) (op : DeltaOperation) :
    Option DeltaOperation × Nat × Nat × Nat :=
  match op.bullet with
  | none => (some op, 0, 0, aIdx)
  | some b =>
    if opts.enableDeduplication = some true ∧ o.embedAvailable then
      match o.embed b.content with
      | .error _ => (some op, 0, 1, aIdx)
      | .ok embedding =>
        let threshold := jsOrQ opts.dedupThreshold (85/100)
        match findSimilarBullets sqrtQ pb embedding threshold with
        | .error _ => (some op, 0, 1, aIdx)
        | .ok [] => (some op, 0, 1, aIdx)
        | .ok (s :: rest) =>
          let a := resolveAssessment (o.assessFailed aIdx) (o.assessRec aIdx)
          (handleDeduplication op a (s :: rest), 1, 1, aIdx + 1)
    else
      (some op, 0, 0, aIdx)

/-- The per-operation loop of `Curator.generateDeltaOperations`: ADDs go
through deduplication whenever `options.enableDeduplication !== false`
(note: *undefined* still enters `processAddOperation`, which then skips
the embed step because `options.enableDeduplication` is not truthy);
everything else is pushed unchanged.  Returns the collected operations
with the chat-call, embed-call and assessment-index tallies. -/
def processOperations (sqrtQ : ℚ → ℚ) (pb : Playbook) (o : CuratorOracle)
    (opts : CurationOptions) (parsedOps : List DeltaOperation) :
    List DeltaOperation × Nat × Nat :=
  let r := parsedOps.foldl
    (fun (acc : List DeltaOperation × Nat × Nat × Nat) op =>
      if op.type = .ADD ∧ opts.enableDeduplication ≠ some false then
        let p := processAddOperation sqrtQ pb o opts acc.2.2.2 op
        (match p.1 with
         | some op' => acc.1 ++ [op']
         | none => acc.1,
         acc.2.1 + p.2.1, acc.2.2.1 + p.2.2.1, p.2.2.2)
      else
        (acc.1 ++ [op], acc.2))
    ([], 0, 0, 0)
  (r.1, r.2.1, r.2.2.1)

/-- `CurationResult.statistics`. -/
structure CurationStatistics where
  adds : Nat
  updates : Nat
  deletes : Nat
deriving Repr, DecidableEq

/-- `CurationResult`. -/
structure CurationResult where
  operations : List DeltaOperation
  summary : String
  statistics : CurationStatistics
deriving Repr, DecidableEq

/-- `Curator.calculateStatistics(operations)`. -/
def calculateStatistics (operations : List DeltaOperation) : CurationStatistics :=
  operations.foldl
    (fun stats op =>
      match op.type with
      | .ADD => { stats with adds := stats.adds + 1 }
      | .UPDATE => { stats with updates := stats.updates + 1 }
      | .DELETE => { stats with deletes := stats.deletes + 1 })
    { adds := 0, updates := 0, deletes := 0 }

/-- `Curator.createSummary(operations, insights)` (pluralization-aware). -/
def createSummary (operations : List DeltaOperation) (insights : List Insight) :
    String :=
  let stats := calculateStatistics operations
  let base := "Processed " ++ toString insights.length ++
    " insights and generated " ++ toString operations.length ++ " operations: "
  let parts :=
    (if stats.adds > 0 then
      [toString stats.adds ++ " new bullet" ++ (if stats.adds > 1 then "s" else "")]
     else []) ++
    (if stats.updates > 0 then
      [toString stats.updates ++ " update" ++ (if stats.updates > 1 then "s" else "")]
     else []) ++
    (if stats.deletes > 0 then
      [toString stats.deletes ++ " deletion" ++ (if stats.deletes > 1 then "s" else "")]
     else [])
  base ++ (if parts = [] then "no changes recommended"
           else String.intercalate ", " parts) ++ "."

/-- `CuratorError` (provider failures wrapped by `curate`). -/
inductive CuratorError | provider
deriving Repr, DecidableEq

/-- `Curator.curate(insights, options)`.  Returns the result plus the
number of gateway chat calls and embed calls the run performed.
Empty input returns immediately; insights are filtered by
`confidence >= (options.minConfidence ?? 0.5)` (nullish coalescing: an
explicit 0 threshold stays 0) and zero survivors also return
immediately — in both cases without touching the gateway.  Otherwise
one synthesis chat runs, its response is parsed (with the text
fallback), the operations are normalized and deduplicated, and the
summary and statistics are computed. -/
def curate (sqrtQ : ℚ → ℚ) (o : CuratorOracle) (pb : Playbook)
    (fresh : Nat → String) (now : Nat) (insights : List Insight)
    (opts : CurationOptions) :
    Except CuratorError (CurationResult × Nat × Nat) :=
  if insights = [] then
    .ok ({ operations := []
           summary := "No insights provided for curation"
           statistics := { adds := 0, updates := 0, deletes := 0 } }, 0, 0)
  else
    let filteredInsights := filterInsights insights (opts.minConfidence.getD (1/2))
    if filteredInsights = [] then
      .ok ({ operations := []
             summary := "No insights met the confidence threshold"
             statistics := { adds := 0, updates := 0, deletes := 0 } }, 0, 0)
    else
      match o.synth with
      | .error _ => .error .provider
      | .ok (responseRaw, parsed) =>
        let parsedOps := parseOperations responseRaw parsed fresh now
        let r := processOperations sqrtQ pb o opts parsedOps
        .ok ({ operations := r.1
               summary := createSummary r.1 filteredInsights
               statistics := calculateStatistics r.1 }, 1 + r.2.1, r.2.2)

/-! ## The reflector (`src/core/reflector.ts`) -/

/-- `ReflectionOptions` (LLM sampling options omitted; `none` models an
absent field). -/
structure ReflectionOptions where
  maxIterations : Option Nat := none
  qualityThreshold : Option ℚ := none
deriving Repr, DecidableEq

/-- A trajectory (metadata omitted: no embedded behaviour reads it). -/
structure Trajectory where
  query : String
  response : String
  bullets_used : List String
  bullets_helpful : List String
  bullets_harmful : List String
deriving Repr, DecidableEq

/-- `ReflectionResult`. -/
structure ReflectionResult where
  insights : List Insight
  iterations : Nat
  quality_score : ℚ
deriving Repr, DecidableEq

/-- An insight as it comes out of `JSON.parse`: every field optional. -/
structure RawInsight where
  observation : Option String := none
  lesson : Option String := none
  suggested_bullet : Option String := none
  confidence : Option ℚ := none
  sectionName : Option String := none
deriving Repr, DecidableEq

/-- What `parseInsights` sees: either a parsed `insights` array, or the
raw response text for the line-oriented fallback (`JSON.parse` throwing
and a parsed value without an `insights` array both take the fallback
path). -/
inductive InsightParseSource
  | jsonInsights (raws : List RawInsight)
  | fallback (raw : String)
deriving Repr, DecidableEq

/-- The JSON branch of `parseInsights`: defaults `'' / '' / '' /
clamp01(confidence || 0.5) / 'General'`. -/
def normalizeRawInsight (r : RawInsight) : Insight where
  observation := jsOrOptStr r.observation ""
  lesson := jsOrOptStr r.lesson ""
  suggested_bullet := jsOrOptStr r.suggested_bullet ""
  confidence := some (max 0 (min 1 (jsOrQ r.confidence (1/2))))
  sectionName := jsOrOptStr r.sectionName "General"

/-- The building state of the text-extraction fallback. -/
structure DraftInsight where
  observation : Option String := none
  lesson : Option String := none
  suggested_bullet : Option String := none
  confidence : Option ℚ := none
  sectionName : Option String := none
deriving Repr, DecidableEq

/-- `Reflector.isValidInsight`: observation, lesson and suggested_bullet
must all be truthy. -/
def isValidInsight (p : DraftInsight) : Bool :=
  optStrTruthy p.observation && optStrTruthy p.lesson &&
    optStrTruthy p.suggested_bullet

/-- `Reflector.completeInsight`: fill the gaps (`|| ''`, `|| 0.5`,
`|| 'General'`).  A `confidence` of `NaN` (a digit-free number run) is
modelled as `none`; JS `NaN || 0.5`, `undefined || 0.5` and `0 || 0.5`
all produce 0.5 exactly as `jsOrQ` does. -/
def completeInsight (p : DraftInsight) : Insight where
  observation := jsOrOptStr p.observation ""
  lesson := jsOrOptStr p.lesson ""
  suggested_bullet := jsOrOptStr p.suggested_bullet ""
  confidence := some (jsOrQ p.confidence (1/2))
  sectionName := jsOrOptStr p.sectionName "General"

/-- The replacement `trimmed.replace(/label\s*/i, '')`: delete the first
case-insensitive occurrence of `label` together with the whitespace
following it (text before the match is kept). -/
def replaceLabel (label : List Char) : List Char → List Char
  | [] => []
  | c :: rest =>
    if label.isPrefixOf (jsToLowerChars (c :: rest)) then
      ((c :: rest).drop label.length).dropWhile Char.isWhitespace
    else c :: replaceLabel label rest

/-- Digit run to natural number. -/
def digitsToNat (l : List Char) : Nat :=
  l.foldl (fun n c => n * 10 + (c.toNat - '0'.toNat)) 0

/-- JS `parseFloat` restricted to a non-empty `[0-9.]+` run: integer
part, then an optional fraction up to a second dot; a digit-free run is
`NaN`, modelled as `none`. -/
def parseNumRun (run : List Char) : Option ℚ :=
  let intPart := run.takeWhile Char.isDigit
  let rest := run.drop intPart.length
  match rest with
  | '.' :: rest2 =>
    let fracPart := rest2.takeWhile Char.isDigit
    if intPart = [] ∧ fracPart = [] then none
    else some ((digitsToNat intPart : ℚ) +
      (digitsToNat fracPart : ℚ) / (10 : ℚ) ^ fracPart.length)
  | _ => if intPart = [] then none else some (digitsToNat intPart : ℚ)

/-- The regex `/confidence:\s*([0-9.]+)/i`: at the first position where
the label matches case-insensitively and a non-empty digit-or-dot run
follows the optional whitespace, capture that run. -/
def findConfidenceMatch : List Char → Option (List Char)
  | [] => none
  | c :: rest =>
    let label := "confidence:".data
    if label.isPrefixOf (jsToLowerChars (c :: rest)) then
      let after := ((c :: rest).drop label.length).dropWhile Char.isWhitespace
      let run := after.takeWhile (fun d => d.isDigit || d = '.')
      if run ≠ [] then some run else findConfidenceMatch rest
    else findConfidenceMatch rest

/-- One line of `Reflector.extractInsightsFromText`: the `else if`
cascade over `observation:` / `lesson:` / `suggested_bullet:` /
`confidence:` / `section:`. -/
def extractInsightsLine (st : List Insight × DraftInsight) (line : List Char) :
    List Insight × DraftInsight :=
  let insights := st.1
  let cur := st.2
  let trimmed := jsTrimChars line
  let low := jsToLowerChars trimmed
  if containsChars low "observation:".data then
    let flushed :=
      if optStrTruthy cur.observation then
        (if isValidInsight cur then insights ++ [completeInsight cur] else insights,
         ({} : DraftInsight))
      else (insights, cur)
    let v := String.mk (replaceLabel "observation:".data trimmed)
    (flushed.1, { flushed.2 with observation := some v })
  else if containsChars low "lesson:".data then
    let v := String.mk (replaceLabel "lesson:".data trimmed)
    (insights, { cur with lesson := some v })
  else if containsChars low "suggested_bullet:".data then
    let v := String.mk (replaceLabel "suggested_bullet:".data trimmed)
    (insights, { cur with suggested_bullet := some v })
  else if containsChars low "confidence:".data then
    match findConfidenceMatch trimmed with
    | some run => (insights, { cur with confidence := parseNumRun run })
    | none => (insights, cur)
  else if containsChars low "section:".data then
    let v := String.mk (replaceLabel "section:".data trimmed)
    (insights, { cur with sectionName := some v })
  else
    (insights, cur)

/-- `Reflector.extractInsightsFromText(response)`: scan the lines,
flushing a block whenever a fresh `observation:` starts, and keep the
final block when it is valid. -/
def extractInsightsFromText (response : String) : List Insight :=
  let st := (splitOnChar '\n' response.data).foldl extractInsightsLine ([], {})
  if isValidInsight st.2 then st.1 ++ [completeInsight st.2] else st.1

/-- `Reflector.parseInsights(response)`. -/
def parseInsights (src : InsightParseSource) : List Insight :=
  match src with
  | .jsonInsights raws => raws.map normalizeRawInsight
  | .fallback raw => extractInsightsFromText raw

/-- A quality assessment as it comes out of `JSON.parse` (only the two
fields the control flow reads). -/
structure RawQualityAssessment where
  overall_quality : Option ℚ := none
  should_refine : Option Bool := none
deriving Repr, DecidableEq

/-- `JSON.parse` outcome for an assessment chat response. -/
inductive AssessParse
  | parsed (r : RawQualityAssessment)
  | unparsed
deriving Repr, DecidableEq

/-- The resolved quality assessment (the fields driving the loop). -/
structure QualityAssessment where
  overall_quality : ℚ
  should_refine : Bool
deriving Repr, DecidableEq

/-- `ReflectorError`. -/
inductive ReflectorError
  /-- "Trajectory must have both query and response" -/
  | invalidTrajectory
  /-- gateway failure propagated as a `ReflectorError` wrapper -/
  | provider
deriving Repr, DecidableEq

/-- `Reflector.assessQuality(insights)`: an empty insight set forces
quality 0 and refinement *without* a gateway call; otherwise the chat
runs (a throw propagates) and its parsed `overall_quality || 0` is
clamped to [0,1] with `should_refine = (x.should_refine !== false)`;
a parse failure falls back to the mean confidence with
`should_refine = mean < 0.7`.  (`parseInsights` always sets
`confidence`, so the `getD 0` in the mean is never exercised.) -/
def assessQuality (insights : List Insight) (resp : Except Unit AssessParse) :
    Except ReflectorError QualityAssessment :=
  if insights = [] then
    .ok { overall_quality := 0, should_refine := true }
  else
    match resp with
    | .error _ => .error .provider
    | .ok (.parsed r) =>
      .ok { overall_quality := max 0 (min 1 (jsOrQ r.overall_quality 0))
            should_refine := r.should_refine ≠ some false }
    | .ok .unparsed =>
      let avgConfidence :=
        ((insights.map (fun i => i.confidence.getD 0)).sum) / (insights.length : ℚ)
      .ok { overall_quality := avgConfidence
            should_refine := decide (avgConfidence < 7/10) }

/-- `Reflector.refineInsights` after its chat and parse: a refinement
that parses to zero insights keeps the previous set. -/
def refineInsights (insights : List Insight) (refinedParsed : List Insight) :
    List Insight :=
  if refinedParsed = [] then insights else refinedParsed

/-- The reflector's gateway-and-parser oracle. -/
structure ReflectorOracle where
  /-- Initial analysis chat + parse (`.error` = thrown `ProviderError`). -/
  analysis : Except Unit InsightParseSource
  /-- The assessment chat + parse at loop iteration `n`. -/
  assess : Nat → Except Unit AssessParse
  /-- The refinement chat + parse at loop iteration `n`. -/
  refine : Nat → Except Unit InsightParseSource

/-- The `while (iterations < maxIterations)` loop of `Reflector.reflect`,
carrying the current insights, the iteration count and the last
assessed quality. -/
def reflectLoop (o : ReflectorOracle) (maxIterations : Nat)
    (qualityThreshold : ℚ) (insights : List Insight) (iterations : Nat)
    (lastQuality : ℚ) : Except ReflectorError ReflectionResult :=
  if _h : iterations < maxIterations then
    match assessQuality insights (o.assess iterations) with
    | .error e => .error e
    | .ok a =>
      if qualityThreshold ≤ a.overall_quality ∨ a.should_refine = false then
        .ok { insights := insights, iterations := iterations
              quality_score := a.overall_quality }
      else
        match o.refine iterations with
        | .error _ => .error .provider
        | .ok src =>
          reflectLoop o maxIterations qualityThreshold
            (refineInsights insights (parseInsights src)) (iterations + 1)
            a.overall_quality
  else
    .ok { insights := insights, iterations := iterations
          quality_score := lastQuality }
termination_by maxIterations - iterations
decreasing_by omega

/-- `Reflector.reflect(trajectory, options)`.  `ctorMax` is the
constructor's `maxIterations` field (default 5); the effective bound is
`options.maxIterations || ctorMax` (an explicit 0 falls back) and the
threshold `options.qualityThreshold || 0.8`.  An empty query or
response throws; the initial analysis counts as iteration 1. -/
def reflect (o : ReflectorOracle) (ctorMax : Nat := 5) (t : Trajectory)
    (opts : ReflectionOptions) : Except ReflectorError ReflectionResult :=
  let maxIterations := jsOrNat opts.maxIterations ctorMax
  let qualityThreshold := jsOrQ opts.qualityThreshold (8/10)
  if t.query = "" ∨ t.response = "" then
    .error .invalidTrajectory
  else
    match o.analysis with
    | .error _ => .error .provider
    | .ok src =>
      reflectLoop o maxIterations qualityThreshold (parseInsights src) 1 0

/-! ## The generator (`src/core/generator.ts` and helpers from
`src/core/prompts.ts`) -/

/-- `GenerationOptions` (sampling options omitted). -/
structure GenerationOptions where
  model : Option String := none
  maxBullets : Option Nat := none
  prioritySections : Option (List String) := none
deriving Repr, DecidableEq

/-- `Generator.calculateHelpfulnessRatio(bullet)`: `helpful / (helpful +
harmful)`, with 0.5 for an unused bullet. -/
def calculateHelpfulnessRatio (b : Bullet) : ℚ :=
  let total := b.metadata.helpful_count + b.metadata.harmful_count
  if total = 0 then 1/2
  else (b.metadata.helpful_count : ℚ) / (total : ℚ)

/-- The three-component sort key of `Generator.selectBullets`: priority
flag (membership of the section in `prioritySections`), helpfulness
ratio, and `last_used` recency (`?.getTime() || 0`). -/
def generatorKey (prioritySections : List String) (b : Bullet) : ℚ × ℚ × ℚ :=
  ((if prioritySections.contains b.sectionName then 1 else 0 : ℚ),
   calculateHelpfulnessRatio b,
   ((b.metadata.last_used.getD 0 : Nat) : ℚ))

/-- The JS comparator of `selectBullets` as a `mergeSort` predicate:
`a` may precede `b` iff the comparator is `≤ 0`, i.e. iff `a`'s key is
lexicographically greater than or equal to `b`'s (priority first, then
ratio, then recency, all descending). -/
def generatorLe (prioritySections : List String) (a b : Bullet) : Bool :=
  let ka := generatorKey prioritySections a
  let kb := generatorKey prioritySections b
  decide (kb.1 < ka.1) ||
    (decide (ka.1 = kb.1) &&
      (decide (kb.2.1 < ka.2.1) ||
        (decide (ka.2.1 = kb.2.1) && decide (kb.2.2 ≤ ka.2.2))))

/-- The id/section/content view `selectBullets` returns. -/
structure SelectedBullet where
  id : String
  sectionName : String
  content : String
deriving Repr, DecidableEq

/-- `Generator.selectBullets(options)` before the final projection: all
bullets, sorted by the stable comparator above, truncated to
`options.maxBullets || 20` (an explicit 0 falls back to 20). -/
def selectBulletsFull (pb : Playbook) (opts : GenerationOptions) :
    List Bullet :=
  let maxBullets := jsOrNat opts.maxBullets 20
  let prioritySections := opts.prioritySections.getD []
  let bullets := pb.bullets
  if bullets = [] then []
  else (bullets.mergeSort (generatorLe prioritySections)).take maxBullets

/-- `Generator.selectBullets(options)`: the sorted, truncated selection
projected to id/section/content. -/
def selectBullets (pb : Playbook) (opts : GenerationOptions) :
    List SelectedBullet :=
  (selectBulletsFull pb opts).map
    (fun b => { id := b.id, sectionName := b.sectionName, content := b.content })

/-- The regex `/BULLET TRACKING:([\s\S]*?)(?:\n\n|$)/i`: everything from
the first case-insensitive `BULLET TRACKING:` up to the first blank
line (or the end). -/
def upToDoubleNewline : List Char → List Char
  | [] => []
  | '\n' :: '\n' :: _ => []
  | c :: rest => c :: upToDoubleNewline rest

/-- Find the tracking section of a response (none when the label is
absent). -/
def findTrackingSection : List Char → Option (List Char)
  | [] => none
  | c :: rest =>
    let label := "bullet tracking:".data
    if label.isPrefixOf (jsToLowerChars (c :: rest)) then
      some (upToDoubleNewline ((c :: rest).drop label.length))
    else findTrackingSection rest

/-- Characters admitted in a bullet id by the tracking regexes
(`[a-zA-Z0-9-]`). -/
def isIdChar (c : Char) : Bool :=
  (('a' ≤ c ∧ c ≤ 'z') ∨ ('A' ≤ c ∧ c ≤ 'Z') ∨ ('0' ≤ c ∧ c ≤ '9') ∨ c = '-' :
    Prop) |> decide

/-- The global regex `/#helpful-([a-zA-Z0-9-]+)/g` (resp. harmful):
collect every non-empty id run following the tag, resuming the scan
after each match. -/
def collectTags (tagHead : Char) (tagTail : List Char) : List Char → List String
  | [] => []
  | c :: rest =>
    if (tagHead :: tagTail).isPrefixOf (c :: rest) then
      let after := rest.drop tagTail.length
      let run := after.takeWhile isIdChar
      if run = [] then collectTags tagHead tagTail rest
      else String.mk run :: collectTags tagHead tagTail (after.drop run.length)
    else collectTags tagHead tagTail rest
termination_by l => l.length
decreasing_by
  · simp
  · simp only [List.length_drop, List.length_cons]
    omega
  · simp

/-- `extractBulletTracking(response)` from `src/core/prompts.ts`:
helpful ids and harmful ids, both empty when there is no tracking
section. -/
def extractBulletTracking (response : String) : List String × List String :=
  match findTrackingSection response.data with
  | none => ([], [])
  | some sec =>
    (collectTags '#' "helpful-".data sec, collectTags '#' "harmful-".data sec)

/-- `Generator.estimateTokens(text)`: `ceil(length / 4)`. -/
def estimateTokens (text : String) : Nat := (text.length + 3) / 4

/-- `GeneratorError`. -/
inductive GeneratorError
  /-- "Query cannot be empty" -/
  | emptyQuery
  /-- gateway failure wrapped as a `GeneratorError` -/
  | provider
deriving Repr, DecidableEq

/-- `Generator.generate(query, options)`.  `chatResponse` is the gateway
chat oracle (`.error` = thrown provider error) and `now` the
timestamp.  A blank query throws `EmptyQueryError`; otherwise the
selection, tracking extraction, feedback write-back and trajectory
assembly are embedded from the source (the trajectory metadata —
model name, timestamp, token estimate — is bookkeeping no claimed
behaviour reads and is left out of the `Trajectory` record). -/
def generate (pb : Playbook) (chatResponse : Except Unit String)
    (query : String) (opts : GenerationOptions)
    (now : Nat) : Except GeneratorError (Trajectory × Playbook) :=
  if jsTrim query = "" then
    .error .emptyQuery
  else
    let selectedBullets := selectBullets pb opts
    match chatResponse with
    | .error _ => .error .provider
    | .ok response =>
      let tracking := extractBulletTracking response
      let trajectory : Trajectory :=
        { query := query
          response := response
          bullets_used := selectedBullets.map (fun b => b.id)
          bullets_helpful := tracking.1
          bullets_harmful := tracking.2 }
      let pb1 :=
        if tracking.1.length > 0 then updateBulletFeedback pb tracking.1 true now
        else pb
      let pb2 :=
        if tracking.2.length > 0 then updateBulletFeedback pb1 tracking.2 false now
        else pb1
      .ok (trajectory, pb2)

/-! ## Concrete fixtures (used by witnesses and counterexamples) -/

/-- A deterministic id stream standing in for `uuidv4()`. -/
def freshEx : Nat → String := fun n => "uuid-" ++ toString n

/-- Zeroed metadata. -/
def metaEx : BulletMetadata := { created := 0, helpful_count := 0, harmful_count := 0 }

/-- An empty playbook with capacity 10. -/
def pbEx : Playbook := { bullets := [], maxPlaybookSize := 10 }

/-- A bullet whose content is the phrase used by the search scenario. -/
def bEx1 : Bullet := { id := "b1", sectionName := "S", content := "exact phrase", metadata := metaEx }

/-- A bullet containing that phrase strictly inside longer content. -/
def bEx2 : Bullet := { id := "b2", sectionName := "S", content := "an exact phrase here", metadata := metaEx }

/-- A playbook holding the two bullets above (substring match first). -/
def pbTwo : Playbook := { bullets := [bEx2, bEx1] }

/-- A playbook holding only the verbatim-match bullet. -/
def pbOne : Playbook := { bullets := [bEx1] }

/-- A structurally valid record with empty content. -/
def blankBullet : Bullet := { id := "x", sectionName := "s", content := "", metadata := metaEx }

/-- An ADD delta carrying the blank-content bullet. -/
def addBlankOp : DeltaOperation := { type := .ADD, bullet := some blankBullet }

/-- The store reached by applying that ADD to the empty playbook. -/
def pbBlank : Playbook := (applyDeltas freshEx pbEx [addBlankOp]).1

/-- A parsed insight of confidence 1 (integral values keep the concrete
evaluations within the fragment of ℚ the proofs can normalize). -/
def rawInsightEx : RawInsight :=
  { observation := some "o", lesson := some "l", suggested_bullet := some "s",
    confidence := some 1, sectionName := some "S" }

/-- A reflector oracle that always reports quality 0, demands
refinement, and returns unparseable refinements. -/
def oracleRefineEx : ReflectorOracle :=
  { analysis := .ok (.jsonInsights [rawInsightEx])
    assess := fun _ => .ok (.parsed { overall_quality := some 0, should_refine := some true })
    refine := fun _ => .ok (.fallback "") }

/-- A reflector oracle whose first assessment already says stop. -/
def oracleStopEx : ReflectorOracle :=
  { analysis := .ok (.jsonInsights [rawInsightEx])
    assess := fun _ => .ok (.parsed { overall_quality := some 1, should_refine := some false })
    refine := fun _ => .ok (.fallback "") }

/-- A valid trajectory. -/
def trajEx : Trajectory :=
  { query := "q", response := "r", bullets_used := [], bullets_helpful := [],
    bullets_harmful := [] }

/-- An insight without a confidence value. -/
def insightNoConf : Insight :=
  { observation := "o", lesson := "l", suggested_bullet := "s",
    confidence := none, sectionName := "T" }

/-- An insight of confidence 0.8. -/
def insightHigh : Insight :=
  { observation := "o", lesson := "l", suggested_bullet := "s",
    confidence := some (8/10), sectionName := "T" }

/-- A bullet embedded at `[1]`. -/
def bEmb : Bullet :=
  { id := "e1", sectionName := "S", content := "embedded",
    metadata := { created := 0, helpful_count := 0, harmful_count := 0,
                  embedding := some [1] } }

/-- A playbook holding only the embedded bullet. -/
def pbEmb : Playbook := { bullets := [bEmb] }

/-- A placeholder square root (the dedup witnesses pick inputs for which
any positive constant works). -/
def sqrtOne : ℚ → ℚ := fun _ => 1

/-- A candidate bullet for deduplication. -/
def bCand : Bullet := { id := "c", sectionName := "T", content := "candidate", metadata := metaEx }

/-- The pending ADD carrying the candidate. -/
def addCandOp : DeltaOperation := { type := .ADD, bullet := some bCand }

/-- Curation options enabling dedup with threshold 1. -/
def dedupOptsEx : CurationOptions :=
  { enableDeduplication := some true, dedupThreshold := some 1 }

/-- A curator oracle whose dedup assessment recommends `discard`. -/
def curOracleDiscard : CuratorOracle :=
  { synth := .ok ("", some [])
    embedAvailable := true
    embed := fun _ => .ok [1]
    assessFailed := fun _ => false
    assessRec := fun _ => some .discard }

/-- A parsed ADD operation without an id (and without metadata). -/
def rawAddNoId : RawOperation :=
  { type := .ADD, bullet := some { sectionName := some "T", content := some "new guidance" } }

/-- A parsed ADD operation missing its bullet entirely. -/
def rawAddNoBullet : RawOperation := { type := .ADD }

/-- Total of the four `applyDeltas` counters. -/
def sumDeltaResults (r : DeltaResults) : Nat :=
  r.added + r.updated + r.deleted + r.errors

/-- The part of the claimed store invariant the code actually maintains
through `addBullet` and `updateBullet`: stored content is non-empty
after trimming. -/
def ContentInvariant (pb : Playbook) : Prop :=
  ∀ b ∈ pb.bullets, jsTrim b.content ≠ ""

/-- The validity predicate `import` applies to each entry. -/
def ImportValid (b : Bullet) : Prop :=
  b.id ≠ "" ∧ b.sectionName ≠ "" ∧ b.content ≠ ""

instance : DecidablePred ImportValid := fun b => by
  unfold ImportValid
  infer_instance

/-! # Theorems

Helper lemmas first, then one theorem per claim (with its witness or
counterexample where required). -/

theorem mapGet_mapSet (l : List Bullet) (b : Bullet) :
    mapGet (mapSet l b) b.id = some b := by
  induction l with
  | nil => simp [mapSet, mapGet]
  | cons x xs ih =>
    by_cases h : x.id = b.id
    · simp [mapSet, mapGet, h]
    · simpa [mapSet, mapGet, List.find?, h] using ih

theorem mem_mapSet {l : List Bullet} {b x : Bullet} (hx : x ∈ mapSet l b) :
    x ∈ l ∨ x = b := by
  induction l with
  | nil =>
    right
    simpa [mapSet] using hx
  | cons y ys ih =>
    rw [mapSet] at hx
    by_cases h : y.id = b.id
    · rw [if_pos h] at hx
      rcases List.mem_cons.mp hx with hx | hx
      · exact .inr hx
      · exact .inl (List.mem_cons_of_mem _ hx)
    · rw [if_neg h] at hx
      rcases List.mem_cons.mp hx with hx | hx
      · exact .inl (by simp [hx])
      · rcases ih hx with h' | h'
        · exact .inl (List.mem_cons_of_mem _ h')
        · exact .inr h'

theorem mem_mapDelete {l : List Bullet} {i : String} {x : Bullet}
    (hx : x ∈ (mapDelete l i).1) : x ∈ l := by
  induction l with
  | nil => simp [mapDelete] at hx
  | cons y ys ih =>
    rw [mapDelete] at hx
    by_cases h : y.id = i
    · rw [if_pos h] at hx
      exact List.mem_cons_of_mem _ hx
    · rw [if_neg h] at hx
      rcases List.mem_cons.mp hx with hx | hx
      · simp [hx]
      · exact List.mem_cons_of_mem _ (ih hx)

theorem applyOneDelta_sum_le (fresh : Nat → String)
    (st : Playbook × Nat × DeltaResults) (op : DeltaOperation) :
    sumDeltaResults (applyOneDelta fresh st op).2.2 ≤
      sumDeltaResults st.2.2 + 1 := by
  rcases op with ⟨ty, bl, bid, up⟩
  rcases ty <;> rcases bl with _ | b <;> rcases bid with _ | i <;>
    rcases up with _ | u <;>
    simp only [applyOneDelta]
  all_goals repeat' split
  all_goals simp only [sumDeltaResults]
  all_goals omega

theorem applyDeltasAux_sum_le (fresh : Nat → String)
    (ops : List DeltaOperation) :
    ∀ st : Playbook × Nat × DeltaResults,
      sumDeltaResults (applyDeltasAux fresh st ops).2.2 ≤
        sumDeltaResults st.2.2 + ops.length := by
  induction ops with
  | nil => intro st; simp [applyDeltasAux]
  | cons op rest ih =>
    intro st
    have h1 := applyOneDelta_sum_le fresh st op
    have h2 := ih (applyOneDelta fresh st op)
    simp only [applyDeltasAux, List.foldl_cons] at h2 ⊢
    simp only [List.length_cons]
    omega

/-- C1.  `applyDeltas` processes the operation list in order (the run
over a concatenation is the run over the first part continued over the
second), the four counters account for at most one event per
operation, and a call with one invalid operation (an ADD without a
bullet) and one valid ADD commits the valid bullet while reporting
exactly one error — and, being a total function, never throws.  (The
TS function assembles exactly this record but only logs it: its
declared return type is `Promise<void>`, which is the code bug this
claim surfaces.) -/
theorem C1_applyDeltas_counts :
    (∀ (fresh : Nat → String) (st : Playbook × Nat × DeltaResults)
        (ops₁ ops₂ : List DeltaOperation),
      applyDeltasAux fresh st (ops₁ ++ ops₂) =
        applyDeltasAux fresh (applyDeltasAux fresh st ops₁) ops₂) ∧
    (∀ (fresh : Nat → String) (pb : Playbook) (ops : List DeltaOperation),
      sumDeltaResults (applyDeltas fresh pb ops).2 ≤ ops.length) ∧
    (∀ (fresh : Nat → String) (pb : Playbook) (b : Bullet), b.id ≠ "" →
      (applyDeltas fresh pb
          [{ type := .ADD }, { type := .ADD, bullet := some b }]).2 =
        { added := 1, updated := 0, deleted := 0, errors := 1 } ∧
      getBullet (applyDeltas fresh pb
          [{ type := .ADD }, { type := .ADD, bullet := some b }]).1 b.id =
        some b) := by
  refine ⟨?_, ?_, ?_⟩
  · intro fresh st ops₁ ops₂
    simp [applyDeltasAux, List.foldl_append]
  · intro fresh pb ops
    have h := applyDeltasAux_sum_le fresh ops (pb, 0, {})
    simpa [applyDeltas, sumDeltaResults] using h
  · intro fresh pb b hb
    constructor
    · simp [applyDeltas, applyDeltasAux, applyOneDelta, jsOrStr, hb]
    · simp only [applyDeltas, applyDeltasAux, List.foldl_cons, List.foldl_nil,
        applyOneDelta, jsOrStr, hb, if_neg]
      simpa [getBullet] using mapGet_mapSet pb.bullets b

/-- C1, witness: the one-invalid-one-valid scenario at a concrete store. -/
theorem C1_applyDeltas_counts_witness :
    (applyDeltas freshEx pbEx
        [{ type := .ADD }, { type := .ADD, bullet := some bEx1 }]).2 =
      { added := 1, updated := 0, deleted := 0, errors := 1 } ∧
    getBullet (applyDeltas freshEx pbEx
        [{ type := .ADD }, { type := .ADD, bullet := some bEx1 }]).1 bEx1.id =
      some bEx1 :=
  C1_applyDeltas_counts.2.2 freshEx pbEx bEx1 (by decide)

/-- C2, counterexample: a whitespace-only section is *not* rejected —
`addBullet` tests the section untrimmed, accepts `" "`, and stores it
trimmed to the empty string, while the claim requires a validation
error whenever the section is empty after trimming. -/
theorem C2_counterexample :
    jsTrim " " = "" ∧
    (addBullet pbEx " " "content" {} "id1" 0).toOption.map
        (fun r => (r.1.bullets, r.2)) =
      some ([{ id := "id1", sectionName := "", content := "content",
               metadata := metaEx }],
            { id := "id1", sectionName := "", content := "content",
              metadata := metaEx }) := by
  decide

/-- C2 (amended).  `addBullet` fails with the capacity error when the
store already holds at least the configured maximum; below capacity it
fails with the validation error exactly when the section is the empty
string or the content is empty after trimming (a whitespace-only
section passes and is stored trimmed — possibly empty); otherwise it
stores and returns a bullet carrying the supplied fresh id, the trimmed
section and content, and zeroed counters unless overridden, and a
subsequent `getBullet` on that id yields the stored bullet. -/
theorem C2_addBullet_spec :
    ∀ (pb : Playbook) (sectionName content : String) (m : MetadataOverride)
      (gid : String) (now : Nat),
      (pb.bullets.length ≥ pb.maxPlaybookSize →
        addBullet pb sectionName content m gid now = .error .capacity) ∧
      (pb.bullets.length < pb.maxPlaybookSize →
        sectionName = "" ∨ jsTrim content = "" →
        addBullet pb sectionName content m gid now = .error .validation) ∧
      (pb.bullets.length < pb.maxPlaybookSize → sectionName ≠ "" →
        jsTrim content ≠ "" →
        ∃ pb' b, addBullet pb sectionName content m gid now = .ok (pb', b) ∧
          b.id = gid ∧ b.sectionName = jsTrim sectionName ∧
          b.content = jsTrim content ∧
          (m.helpful_count = none → b.metadata.helpful_count = 0) ∧
          (m.harmful_count = none → b.metadata.harmful_count = 0) ∧
          getBullet pb' gid = some b) := by
  intro pb sectionName content m gid now
  refine ⟨?_, ?_, ?_⟩
  · intro hcap
    simp [addBullet, hcap]
  · intro hcap hval
    rw [addBullet, if_neg (by omega), if_pos hval]
  · intro hcap hsec hcon
    rw [addBullet, if_neg (by omega), if_neg (by tauto)]
    refine ⟨_, _, rfl, rfl, rfl, rfl, ?_, ?_, ?_⟩
    · intro hm; simp [mergeMeta, hm]
    · intro hm; simp [mergeMeta, hm]
    · simpa [getBullet] using mapGet_mapSet pb.bullets _

/-- C2, witness: the success branch at a concrete store. -/
theorem C2_addBullet_spec_witness :
    ∃ pb' b, addBullet pbEx "S" "some content" {} "g1" 0 = .ok (pb', b) ∧
      b.id = "g1" ∧ b.sectionName = jsTrim "S" ∧
      b.content = jsTrim "some content" ∧
      (({} : MetadataOverride).helpful_count = none →
        b.metadata.helpful_count = 0) ∧
      (({} : MetadataOverride).harmful_count = none →
        b.metadata.harmful_count = 0) ∧
      getBullet pb' "g1" = some b :=
  (C2_addBullet_spec pbEx "S" "some content" {} "g1" 0).2.2
    (by decide) (by decide) (by decide)

theorem mem_dropWhile_of_mem {p : Char → Bool} {l : List Char} {ch : Char}
    (h : ch ∈ l) (hp : ¬ p ch = true) : ch ∈ l.dropWhile p := by
  induction l with
  | nil => simp at h
  | cons x xs ih =>
    rw [List.dropWhile_cons]
    split
    · rename_i hx
      rcases List.mem_cons.mp h with rfl | h'
      · exact absurd hx hp
      · exact ih h'
    · exact h

theorem mem_jsTrimChars_of_mem {l : List Char} {ch : Char} (h : ch ∈ l)
    (hw : ¬ ch.isWhitespace = true) : ch ∈ jsTrimChars l := by
  unfold jsTrimChars
  exact List.mem_reverse.mpr (mem_dropWhile_of_mem
    (List.mem_reverse.mpr (mem_dropWhile_of_mem h hw)) hw)

theorem exists_nonws_of_jsTrimChars_ne_nil {l : List Char}
    (h : jsTrimChars l ≠ []) : ∃ ch ∈ jsTrimChars l, ¬ ch.isWhitespace = true := by
  unfold jsTrimChars at h ⊢
  have hY : (l.dropWhile Char.isWhitespace).reverse.dropWhile Char.isWhitespace ≠ [] := by
    intro hc
    exact h (by simp [hc])
  refine ⟨((l.dropWhile Char.isWhitespace).reverse.dropWhile Char.isWhitespace).head hY,
    List.mem_reverse.mpr (List.head_mem hY), ?_⟩
  simp [List.head_dropWhile_not Char.isWhitespace _ hY]

/-- A string equals `""` exactly when its trimmed character list is
empty. -/
theorem jsTrim_eq_empty_iff (t : String) :
    jsTrim t = "" ↔ jsTrimChars t.data = [] := by
  constructor
  · intro hx
    exact congrArg String.data hx
  · intro hx
    apply String.ext
    exact hx

/-- `trim` of a trimmed string stays non-empty (the idempotence fact the
store invariant needs, since `addBullet` stores the *trimmed* content). -/
theorem jsTrim_jsTrim_ne {s : String} (h : jsTrim s ≠ "") :
    jsTrim (jsTrim s) ≠ "" := by
  intro hc
  rw [jsTrim_eq_empty_iff] at hc
  have h' : jsTrimChars s.data ≠ [] := fun hx => h ((jsTrim_eq_empty_iff s).mpr hx)
  have hc' : jsTrimChars (jsTrimChars s.data) = [] := hc
  obtain ⟨ch, hmem, hw⟩ := exists_nonws_of_jsTrimChars_ne_nil h'
  exact absurd (mem_jsTrimChars_of_mem hmem hw) (by simp [hc'])

theorem addBullet_content_inv {pb : Playbook} {s c : String}
    {m : MetadataOverride} {gid : String} {now : Nat} {pb' : Playbook}
    {b : Bullet} (h : addBullet pb s c m gid now = .ok (pb', b))
    (hinv : ContentInvariant pb) : ContentInvariant pb' := by
  simp only [addBullet] at h
  split at h
  · exact absurd h (by simp)
  · split at h
    · exact absurd h (by simp)
    · rename_i hval
      simp only [Except.ok.injEq, Prod.mk.injEq] at h
      obtain ⟨h1, _⟩ := h
      subst h1
      intro x hx
      rcases mem_mapSet hx with hx | hx
      · exact hinv x hx
      · subst hx
        simp only [not_or] at hval
        exact jsTrim_jsTrim_ne hval.2

theorem updateBullet_content_inv {pb : Playbook} {id : String}
    {u : BulletUpdates} {pb' : Playbook} {b : Bullet}
    (h : updateBullet pb id u = .ok (pb', b))
    (hinv : ContentInvariant pb) : ContentInvariant pb' := by
  simp only [updateBullet] at h
  split at h
  · exact absurd h (by simp)
  · split at h
    · exact absurd h (by simp)
    · rename_i hval
      simp only [Except.ok.injEq, Prod.mk.injEq] at h
      obtain ⟨h1, _⟩ := h
      subst h1
      intro x hx
      rcases mem_mapSet hx with hx | hx
      · exact hinv x hx
      · subst hx
        simp only [not_or] at hval
        exact hval.2

theorem applyOneDelta_content_inv (fresh : Nat → String)
    {st : Playbook × Nat × DeltaResults} (op : DeltaOperation)
    (hop : op.type ≠ .ADD) (hinv : ContentInvariant st.1) :
    ContentInvariant (applyOneDelta fresh st op).1 := by
  rcases op with ⟨ty, bl, bid, up⟩
  rcases ty
  · exact absurd rfl hop
  · rcases bl with _ | b <;> rcases bid with _ | i <;> rcases up with _ | u <;>
      simp only [applyOneDelta]
    all_goals first
      | exact hinv
      | (split
         · exact hinv
         · split
           · rename_i pbb _ heq
             exact updateBullet_content_inv heq hinv
           · exact hinv)
  · rcases bl with _ | b <;> rcases bid with _ | i <;> rcases up with _ | u <;>
      simp only [applyOneDelta]
    all_goals first
      | exact hinv
      | (split
         · exact hinv
         · intro x hx
           exact hinv x (mem_mapDelete hx))

/-- C3 (amended).  Non-empty-after-trim *content* is preserved by
`addBullet`, by `updateBullet`, and by any `applyDeltas` run containing
no ADD operation.  (It is not an invariant of all reachable states: an
ADD routed through `applyDeltas` performs no validation at all — the
counterexample stores a bullet with empty content — and `addBullet`
itself accepts a whitespace-only section, storing it trimmed to the
empty string.) -/
theorem C3_content_invariant :
    (∀ (pb : Playbook) (s c : String) (m : MetadataOverride) (gid : String)
       (now : Nat) (pb' : Playbook) (b : Bullet),
       addBullet pb s c m gid now = .ok (pb', b) →
       ContentInvariant pb → ContentInvariant pb') ∧
    (∀ (pb : Playbook) (id : String) (u : BulletUpdates) (pb' : Playbook)
       (b : Bullet),
       updateBullet pb id u = .ok (pb', b) →
       ContentInvariant pb → ContentInvariant pb') ∧
    (∀ (fresh : Nat → String) (pb : Playbook) (ops : List DeltaOperation),
       (∀ op ∈ ops, op.type ≠ .ADD) → ContentInvariant pb →
       ContentInvariant (applyDeltas fresh pb ops).1) := by
  refine ⟨fun _ _ _ _ _ _ _ _ h hinv => addBullet_content_inv h hinv,
          fun _ _ _ _ _ h hinv => updateBullet_content_inv h hinv, ?_⟩
  intro fresh pb ops
  suffices h : ∀ (st : Playbook × Nat × DeltaResults),
      (∀ op ∈ ops, op.type ≠ .ADD) → ContentInvariant st.1 →
      ContentInvariant (applyDeltasAux fresh st ops).1 by
    intro hops hinv
    exact h (pb, 0, {}) hops hinv
  induction ops with
  | nil => intro st _ hinv; exact hinv
  | cons op rest ih =>
    intro st hops hinv
    simp only [applyDeltasAux, List.foldl_cons]
    exact ih (applyOneDelta fresh st op)
      (fun o ho => hops o (List.mem_cons_of_mem _ ho))
      (applyOneDelta_content_inv fresh op (hops op (List.mem_cons_self _ _)) hinv)

/-- C3, counterexample: from the empty store, one ADD delta carrying a
bullet with empty content yields a reachable state violating the
claimed invariant. -/
theorem C3_counterexample :
    pbBlank.bullets = [blankBullet] ∧ jsTrim blankBullet.content = "" := by
  decide

/-- C3, witness: a DELETE-only delta run on a concrete valid store. -/
theorem C3_content_invariant_witness :
    ContentInvariant
      (applyDeltas freshEx pbTwo [{ type := .DELETE, bulletId := some "b1" }]).1 :=
  C3_content_invariant.2.2 freshEx pbTwo
    [{ type := .DELETE, bulletId := some "b1" }] (by decide)
    (fun b hb => by revert b hb; decide)

theorem refineInsights_ne {ins r : List Insight} (h : ins ≠ []) :
    refineInsights ins r ≠ [] := by
  unfold refineInsights
  split
  · exact h
  · assumption

theorem reflectLoop_ok_spec :
    ∀ (k : Nat) (o : ReflectorOracle) (maxI : Nat) (thr : ℚ)
      (ins : List Insight) (iters : Nat) (lastQ : ℚ) (res : ReflectionResult),
      maxI - iters ≤ k →
      reflectLoop o maxI thr ins iters lastQ = .ok res →
      iters ≤ res.iterations ∧ res.iterations ≤ max iters maxI ∧
        (ins ≠ [] → res.insights ≠ []) := by
  intro k
  induction k with
  | zero =>
    intro o maxI thr ins iters lastQ res hk hok
    rw [reflectLoop, dif_neg (by omega)] at hok
    simp only [Except.ok.injEq] at hok
    subst hok
    exact ⟨le_refl _, le_max_left _ _, fun h => h⟩
  | succ k ih =>
    intro o maxI thr ins iters lastQ res hk hok
    rw [reflectLoop] at hok
    by_cases h : iters < maxI
    · rw [dif_pos h] at hok
      split at hok
      · exact absurd hok (by simp)
      · split at hok
        · simp only [Except.ok.injEq] at hok
          subst hok
          exact ⟨le_refl _, le_max_left _ _, fun hne => hne⟩
        · split at hok
          · exact absurd hok (by simp)
          · have hrec := ih o maxI thr _ (iters + 1) _ res (by omega) hok
            refine ⟨by omega, ?_, fun hne => hrec.2.2 (refineInsights_ne hne)⟩
            have h2 := hrec.2.1
            have hmax : max (iters + 1) maxI = maxI := by omega
            rw [hmax] at h2
            have h3 : res.iterations ≤ maxI := h2
            omega
    · rw [dif_neg h] at hok
      simp only [Except.ok.injEq] at hok
      subst hok
      exact ⟨le_refl _, le_max_left _ _, fun hne => hne⟩

/-- C4 (amended).  A refinement that parses to zero insights keeps the
previous insight set, and every successful `reflect` run performs at
least 1 and at most `max 1 (options.maxIterations || ctorMax)`
iterations — the *effective* bound: an absent or zero `maxIterations`
option falls back to the constructor's bound (default 5), so the claim
as stated fails for the explicit option `maxIterations = 0`.  When the
initial analysis parses to a non-empty insight list, the returned list
is non-empty: the result never regresses from non-empty to empty. -/
theorem C4_reflect_bounds :
    (∀ ins : List Insight, refineInsights ins [] = ins) ∧
    (∀ (o : ReflectorOracle) (ctorMax : Nat) (t : Trajectory)
       (opts : ReflectionOptions) (res : ReflectionResult),
       reflect o ctorMax t opts = .ok res →
       1 ≤ res.iterations ∧
       res.iterations ≤ max 1 (jsOrNat opts.maxIterations ctorMax) ∧
       (∀ src, o.analysis = .ok src → parseInsights src ≠ [] →
         res.insights ≠ [])) := by
  constructor
  · intro ins
    simp [refineInsights]
  · intro o ctorMax t opts res hok
    rw [reflect] at hok
    split at hok
    · exact absurd hok (by simp)
    · cases hA : o.analysis with
      | error e =>
        rw [hA] at hok
        exact absurd hok (by simp)
      | ok src =>
        rw [hA] at hok
        have hloop := reflectLoop_ok_spec (jsOrNat opts.maxIterations ctorMax)
          o (jsOrNat opts.maxIterations ctorMax)
          (jsOrQ opts.qualityThreshold (8/10)) (parseInsights src) 1 0 res
          (by omega) hok
        refine ⟨hloop.1, hloop.2.1, ?_⟩
        intro src' hsrc hne
        simp only [Except.ok.injEq] at hsrc
        subst hsrc
        exact hloop.2.2 hne

/-- C4, counterexample: with the explicit option `maxIterations = 0`
(and a gateway that always demands refinement) `reflect` performs 5
iterations — the claim "at most maxIterations iterations" fails at 0. -/
theorem C4_counterexample :
    (reflect oracleRefineEx 5 trajEx
        { maxIterations := some 0, qualityThreshold := some 1 }).toOption.map
      (fun r => r.iterations) = some 5 := by
  simp +decide [reflect, reflectLoop, oracleRefineEx, rawInsightEx, trajEx,
    assessQuality, jsOrNat, jsOrQ, parseInsights, normalizeRawInsight,
    refineInsights, extractInsightsFromText, splitOnChar, extractInsightsLine,
    isValidInsight, completeInsight, jsTrimChars, jsToLowerChars,
    containsChars, optStrTruthy]

/-- C4, witness: the bounds at a concrete single-iteration run. -/
theorem C4_reflect_bounds_witness :
    1 ≤ (1 : Nat) ∧ (1 : Nat) ≤ max 1 (jsOrNat (some 3) 5) ∧
    (∀ src, oracleStopEx.analysis = .ok src → parseInsights src ≠ [] →
      ([⟨"o", "l", "s", some 1, "S"⟩] : List Insight) ≠ []) := by
  have h := C4_reflect_bounds.2 oracleStopEx 5 trajEx
    { maxIterations := some 3, qualityThreshold := some 1 }
    { insights := [⟨"o", "l", "s", some 1, "S"⟩], iterations := 1,
      quality_score := 1 }
    (by simp +decide [reflect, reflectLoop, oracleStopEx, rawInsightEx, trajEx,
      assessQuality, jsOrNat, jsOrQ, parseInsights, normalizeRawInsight])
  exact h

theorem scoreBullet_spec {q : String} {b : Bullet} {r : BulletSearchResult}
    (h : scoreBullet q b = some r) :
    r.bullet = b ∧
    ((jsToLower b.content = q ∧ r.score = 1 ∧ r.match_type = .exact) ∨
     (jsToLower b.content ≠ q ∧
      containsChars (jsToLower b.content).data q.data = true ∧
      r.score = min ((q.length : ℚ) / ((jsToLower b.content).length : ℚ) * 2)
        (9/10) ∧
      r.match_type = .substring)) := by
  simp only [scoreBullet] at h
  split at h
  · rename_i heq
    simp only [Option.some.injEq] at h
    subst h
    exact ⟨rfl, .inl ⟨heq, rfl, rfl⟩⟩
  · split at h
    · rename_i heq hsub
      simp only [Option.some.injEq] at h
      subst h
      exact ⟨rfl, .inr ⟨heq, hsub, rfl, rfl⟩⟩
    · exact absurd h (by simp)

theorem scoreBullet_score_le_one {q : String} {b : Bullet}
    {r : BulletSearchResult} (h : scoreBullet q b = some r) : r.score ≤ 1 := by
  rcases (scoreBullet_spec h).2 with ⟨_, hs, _⟩ | ⟨_, _, hs, _⟩
  · rw [hs]
  · rw [hs]
    have : (9/10 : ℚ) ≤ 1 := by norm_num
    exact le_trans (min_le_right _ _) this

theorem scoreBullet_substring_lt_one {q : String} {b : Bullet}
    {r : BulletSearchResult} (h : scoreBullet q b = some r)
    (hm : r.match_type = .substring) : r.score < 1 := by
  rcases (scoreBullet_spec h).2 with ⟨_, _, hmt⟩ | ⟨_, _, hs, _⟩
  · rw [hmt] at hm; cases hm
  · rw [hs]
    have : (9/10 : ℚ) < 1 := by norm_num
    exact lt_of_le_of_lt (min_le_right _ _) this

theorem searchSortLe_trans (a b c : BulletSearchResult)
    (h1 : searchSortLe a b = true) (h2 : searchSortLe b c = true) :
    searchSortLe a c = true := by
  simp only [searchSortLe, decide_eq_true_eq] at h1 h2 ⊢
  exact le_trans h2 h1

theorem searchSortLe_total (a b : BulletSearchResult) :
    (searchSortLe a b || searchSortLe b a) = true := by
  simp only [searchSortLe, Bool.or_eq_true, decide_eq_true_eq]
  exact le_total b.score a.score

/-- Membership in the search output implies membership in the sorted
candidate list and the filter bound. -/
theorem mem_searchBullets {pb : Playbook} {o : BulletSearchOptions}
    {r : BulletSearchResult} (h : r ∈ searchBullets pb o) :
    r ∈ searchCandidates pb o ∧ o.min_similarity.getD (1/2) ≤ r.score := by
  unfold searchBullets at h
  have h1 := List.mem_of_mem_take h
  rw [List.mem_filter] at h1
  refine ⟨?_, by simpa using h1.2⟩
  exact (List.mergeSort_perm (searchCandidates pb o) searchSortLe).mem_iff.mp h1.1

/-- C5 (amended).  `searchBullets` scores an exact (case-insensitive)
match 1.0 with matchType exact and a substring match
`min(|query|/|content| * 2, 0.9)` with matchType substring; it *never*
produces an embedding result — the embedding branch of the source is a
no-op even when `use_embeddings` is set and bullets carry embeddings
(the claim's cosine-similarity clause fails, see the counterexample).
Results below `min_similarity` are dropped, the rest are sorted by
descending score with a stable insertion-order tie-break and truncated
to `limit`, and when some bullet matches the query verbatim (and the
thresholds admit it) the first returned result is an exact match of
score 1.0, ahead of all substring matches. -/
theorem C5_search_spec :
    ∀ (pb : Playbook) (o : BulletSearchOptions),
      (∀ r ∈ searchBullets pb o,
        r.bullet ∈ pb.bullets ∧ r.match_type ≠ .embedding ∧
        (r.match_type = .exact →
          jsToLower r.bullet.content = jsToLower o.query ∧ r.score = 1) ∧
        (r.match_type = .substring →
          containsChars (jsToLower r.bullet.content).data
            (jsToLower o.query).data = true ∧
          r.score = min (((jsToLower o.query).length : ℚ) /
            ((jsToLower r.bullet.content).length : ℚ) * 2) (9/10)) ∧
        o.min_similarity.getD (1/2) ≤ r.score) ∧
      (searchBullets pb o).length ≤ o.limit.getD 10 ∧
      (searchBullets pb o).Pairwise (fun a b => b.score ≤ a.score) ∧
      (∀ a b, [a, b].Sublist (searchCandidates pb o) → b.score ≤ a.score →
        [a, b].Sublist ((searchCandidates pb o).mergeSort searchSortLe)) ∧
      ((∃ bl ∈ pb.bullets, jsToLower bl.content = jsToLower o.query) →
        o.min_similarity.getD (1/2) ≤ 1 → 0 < o.limit.getD 10 →
        ∃ r rest, searchBullets pb o = r :: rest ∧
          r.match_type = .exact ∧ r.score = 1) := by
  intro pb o
  have hsorted : ((searchCandidates pb o).mergeSort searchSortLe).Pairwise
      (fun a b => searchSortLe a b = true) :=
    List.sorted_mergeSort searchSortLe_trans searchSortLe_total _
  refine ⟨?_, ?_, ?_, ?_, ?_⟩
  · intro r hr
    obtain ⟨hc, hmin⟩ := mem_searchBullets hr
    rw [searchCandidates, List.mem_filterMap] at hc
    obtain ⟨b, hb, hscore⟩ := hc
    obtain ⟨hrb, hcases⟩ := scoreBullet_spec hscore
    subst hrb
    refine ⟨hb, ?_, ?_, ?_, hmin⟩
    · rcases hcases with ⟨_, _, hmt⟩ | ⟨_, _, _, hmt⟩ <;> simp [hmt]
    · intro hmt
      rcases hcases with ⟨he, hs, _⟩ | ⟨_, _, _, hmt'⟩
      · exact ⟨he, hs⟩
      · rw [hmt'] at hmt; cases hmt
    · intro hmt
      rcases hcases with ⟨_, _, hmt'⟩ | ⟨_, hsub, hs, _⟩
      · rw [hmt'] at hmt; cases hmt
      · exact ⟨hsub, hs⟩
  · unfold searchBullets
    simp only [List.length_take]
    exact min_le_left _ _
  · unfold searchBullets
    have h1 : (((searchCandidates pb o).mergeSort searchSortLe).filter
        (fun r => decide (o.min_similarity.getD (1/2) ≤ r.score))).Pairwise
        (fun a b => searchSortLe a b = true) :=
      List.Pairwise.sublist (List.filter_sublist _) hsorted
    have h2 := List.Pairwise.sublist (List.take_sublist (o.limit.getD 10) _) h1
    exact h2.imp (fun hab => by
      simpa [searchSortLe, decide_eq_true_eq] using hab)
  · intro a b hab hle
    exact List.sublist_mergeSort searchSortLe_trans searchSortLe_total
      (by simp [searchSortLe, hle]) hab
  · intro ⟨bl, hbl, hblq⟩ hms hlim
    -- the exact result for bl is in the candidate list
    have hsc : scoreBullet (jsToLower o.query) bl = some ⟨bl, 1, .exact⟩ := by
      unfold scoreBullet
      rw [if_pos hblq]
    have hcand : (⟨bl, 1, .exact⟩ : BulletSearchResult) ∈
        searchCandidates pb o := by
      rw [searchCandidates, List.mem_filterMap]
      exact ⟨bl, hbl, hsc⟩
    have hmem : (⟨bl, 1, .exact⟩ : BulletSearchResult) ∈
        ((searchCandidates pb o).mergeSort searchSortLe).filter
          (fun r => decide (o.min_similarity.getD (1/2) ≤ r.score)) := by
      rw [List.mem_filter]
      refine ⟨?_, by simpa using hms⟩
      exact (List.mergeSort_perm (searchCandidates pb o)
        searchSortLe).mem_iff.mpr hcand
    set filtered := ((searchCandidates pb o).mergeSort searchSortLe).filter
      (fun r => decide (o.min_similarity.getD (1/2) ≤ r.score)) with hfl
    cases hflc : filtered with
    | nil => rw [hflc] at hmem; cases hmem
    | cons f0 frest =>
      have hout : searchBullets pb o =
          f0 :: frest.take (o.limit.getD 10 - 1) := by
        simp only [searchBullets]
        rw [← hfl, hflc]
        cases hl : o.limit.getD 10 with
        | zero => omega
        | succ n => simp [List.take_succ_cons]
      -- f0 is a candidate
      have hf0mem : f0 ∈ filtered := by rw [hflc]; exact List.mem_cons_self _ _
      have hf0cand : f0 ∈ searchCandidates pb o := by
        rw [hfl, List.mem_filter] at hf0mem
        exact (List.mergeSort_perm (searchCandidates pb o)
          searchSortLe).mem_iff.mp hf0mem.1
      rw [searchCandidates, List.mem_filterMap] at hf0cand
      obtain ⟨b0, hb0, hs0⟩ := hf0cand
      -- sortedness of `filtered` puts the score-1 result below f0
      have hfsorted : filtered.Pairwise (fun a b => searchSortLe a b = true) :=
        List.Pairwise.sublist (List.filter_sublist _) hsorted
      have hge : (1 : ℚ) ≤ f0.score := by
        rw [hflc] at hmem
        rcases List.mem_cons.mp hmem with heq | hmem'
        · rw [← heq]
        · rw [hflc, List.pairwise_cons] at hfsorted
          have := hfsorted.1 _ hmem'
          simpa [searchSortLe, decide_eq_true_eq] using this
      have hle1 : f0.score ≤ 1 := scoreBullet_score_le_one hs0
      have hs1 : f0.score = 1 := le_antisymm hle1 hge
      have hmt : f0.match_type = .exact := by
        rcases (scoreBullet_spec hs0).2 with ⟨_, _, hmt⟩ | ⟨_, _, _, hmt⟩
        · exact hmt
        · exact absurd hs1 (ne_of_lt (scoreBullet_substring_lt_one hs0 hmt))
      exact ⟨f0, frest.take (o.limit.getD 10 - 1), hout, hmt, hs1⟩

/-- C5, counterexample: with `use_embeddings` set, a store whose only
bullet carries an embedding, a query matching nothing textually, and
`minSimilarity = 0`, the search returns *no* results — the source's
embedding branch is a no-op, so no cosine-similarity (matchType
`embedding`) result is ever produced, contradicting the claim's
embedding clause. -/
theorem C5_counterexample :
    bEmb.metadata.embedding = some [1] ∧
    searchBullets pbEmb
      { query := "xyz", limit := some 10, use_embeddings := some true,
        min_similarity := some 0 } = [] := by
  constructor
  · rfl
  · simp +decide [searchBullets, searchCandidates, scoreBullet, pbEmb, bEmb,
      jsToLower, containsChars, metaEx]

/-- C5, witness: the verbatim-match scenario at a concrete store. -/
theorem C5_search_spec_witness :
    ∃ r rest,
      searchBullets pbOne
        { query := "exact phrase", limit := some 5, min_similarity := some 1 } =
        r :: rest ∧ r.match_type = .exact ∧ r.score = 1 :=
  (C5_search_spec pbOne
    { query := "exact phrase", limit := some 5, min_similarity := some 1
      }).2.2.2.2
    ⟨bEx1, by decide⟩ (by decide) (by decide)

/-- C6.  Dedup recommendation handling, exactly as the claim states it:
`discard` drops the pending ADD (so a dedup-enabled run whose gateway
recommends discard yields no operation for that insight); `merge`
rewrites it to an UPDATE of the most-similar bullet whose new content
is the existing content concatenated (with `". "`) with the candidate
content; `update` rewrites it to an UPDATE replacing that bullet's
content; `keep_separate` leaves the ADD unchanged; and an embedding
failure or an assessment failure also leaves the ADD unchanged. -/
theorem C6_dedup_handling :
    (∀ (op : DeltaOperation) (l : List Bullet),
       handleDeduplication op { recommendation := .discard } l = none) ∧
    (∀ (op : DeltaOperation) (b t : Bullet) (rest : List Bullet),
       op.bullet = some b →
       handleDeduplication op { recommendation := .merge } (t :: rest) =
         some { type := .UPDATE, bulletId := some t.id,
                updates := some
                  { content := some (t.content ++ ". " ++ b.content) } } ∧
       handleDeduplication op { recommendation := .update } (t :: rest) =
         some { type := .UPDATE, bulletId := some t.id,
                updates := some { content := some b.content } } ∧
       handleDeduplication op { recommendation := .keep_separate } (t :: rest) =
         some op) ∧
    (∀ (sqrtQ : ℚ → ℚ) (pb : Playbook) (o : CuratorOracle)
       (opts : CurationOptions) (aIdx : Nat) (op : DeltaOperation) (b : Bullet),
       op.bullet = some b →
       (o.embed b.content = .error () →
         (processAddOperation sqrtQ pb o opts aIdx op).1 = some op) ∧
       (o.assessFailed aIdx = true →
         (processAddOperation sqrtQ pb o opts aIdx op).1 = some op) ∧
       (∀ (e : List ℚ) (s : Bullet) (rest : List Bullet),
         opts.enableDeduplication = some true → o.embedAvailable = true →
         o.embed b.content = .ok e →
         findSimilarBullets sqrtQ pb e (jsOrQ opts.dedupThreshold (85/100)) =
           .ok (s :: rest) →
         o.assessFailed aIdx = false → o.assessRec aIdx = some .discard →
         (processAddOperation sqrtQ pb o opts aIdx op).1 = none)) := by
  refine ⟨?_, ?_, ?_⟩
  · intro op l
    simp [handleDeduplication]
  · intro op b t rest hb
    refine ⟨?_, ?_, ?_⟩ <;>
      simp [handleDeduplication, jsInterpolateContent, hb]
  · intro sqrtQ pb o opts aIdx op b hb
    refine ⟨?_, ?_, ?_⟩
    · intro hembed
      simp only [processAddOperation, hb]
      by_cases hc : opts.enableDeduplication = some true ∧ o.embedAvailable = true
      · rw [if_pos hc, hembed]
      · rw [if_neg hc]
    · intro hfail
      simp only [processAddOperation, hb]
      by_cases hc : opts.enableDeduplication = some true ∧ o.embedAvailable = true
      · rw [if_pos hc]
        cases hE : o.embed b.content with
        | error e => rfl
        | ok e =>
          dsimp only
          cases hS : findSimilarBullets sqrtQ pb e
              (jsOrQ opts.dedupThreshold (85/100)) with
          | error e2 => rfl
          | ok l =>
            cases l with
            | nil => rfl
            | cons s rest =>
              simp [resolveAssessment, hfail, handleDeduplication]
      · rw [if_neg hc]
    · intro e s rest hEn hAvail hembed hsim hfail hrec
      simp only [processAddOperation, hb]
      rw [if_pos ⟨hEn, hAvail⟩, hembed]
      dsimp only
      rw [hsim]
      simp [resolveAssessment, hfail, hrec, handleDeduplication]

/-- C6, witness: a concrete dedup-enabled run whose gateway recommends
`discard` drops the candidate ADD. -/
theorem C6_dedup_handling_witness :
    (processAddOperation sqrtOne pbEmb curOracleDiscard dedupOptsEx 0
      addCandOp).1 = none :=
  (C6_dedup_handling.2.2 sqrtOne pbEmb curOracleDiscard dedupOptsEx 0
    addCandOp bCand rfl).2.2 [1] bEmb [] rfl rfl rfl
    (by
      simp +decide [findSimilarBullets, cosineSimilarity, pbEmb, bEmb,
        sqrtOne, jsOrQ, dedupOptsEx])
    rfl rfl

/-- C7, counterexample: an insight with *missing* confidence passes the
filter when the caller sets `minConfidence = 0` (the `??` default keeps
an explicit 0), because a missing confidence is treated as 0 and the
comparison is `0 ≥ 0` — the claim says a missing confidence always
fails the filter. -/
theorem C7_counterexample :
    insightNoConf.confidence = none ∧
    filterInsights [insightNoConf] 0 = [insightNoConf] := by
  constructor
  · rfl
  · decide

/-- C7 (amended).  `curate` on an empty insight list returns the empty
result — zero operations, zeroed statistics — immediately and without
any gateway (chat or embed) call; likewise when no insight survives the
`confidence ≥ (options.minConfidence ?? 0.5)` filter.  The filter keeps
exactly the insights whose confidence (with a missing confidence
treated as 0) meets the threshold; a missing confidence therefore fails
the filter whenever the threshold is positive — but not at an explicit
threshold of 0 (see the counterexample). -/
theorem C7_curate_filter :
    ∀ (sqrtQ : ℚ → ℚ) (o : CuratorOracle) (pb : Playbook)
      (fresh : Nat → String) (now : Nat) (insights : List Insight)
      (opts : CurationOptions),
      (insights = [] →
        curate sqrtQ o pb fresh now insights opts =
          .ok ({ operations := []
                 summary := "No insights provided for curation"
                 statistics := { adds := 0, updates := 0, deletes := 0 } },
               0, 0)) ∧
      (insights ≠ [] →
        filterInsights insights (opts.minConfidence.getD (1/2)) = [] →
        curate sqrtQ o pb fresh now insights opts =
          .ok ({ operations := []
                 summary := "No insights met the confidence threshold"
                 statistics := { adds := 0, updates := 0, deletes := 0 } },
               0, 0)) ∧
      (∀ i, i ∈ filterInsights insights (opts.minConfidence.getD (1/2)) ↔
        i ∈ insights ∧ opts.minConfidence.getD (1/2) ≤ jsOrQ i.confidence 0) ∧
      (0 < opts.minConfidence.getD (1/2) →
        ∀ i ∈ filterInsights insights (opts.minConfidence.getD (1/2)),
          i.confidence ≠ none) := by
  intro sqrtQ o pb fresh now insights opts
  refine ⟨?_, ?_, ?_, ?_⟩
  · intro h
    simp [curate, h]
  · intro hne hfil
    rw [curate, if_neg hne]
    simp only [hfil]
    rfl
  · intro i
    simp [filterInsights, List.mem_filter]
  · intro hpos i hi
    rw [filterInsights, List.mem_filter] at hi
    intro hnone
    have h0 : jsOrQ i.confidence 0 = 0 := by rw [hnone]; rfl
    have h2 := hi.2
    rw [h0] at h2
    simp only [decide_eq_true_eq] at h2
    exact absurd h2 (not_le.mpr hpos)

/-- C7, witness: zero survivors at a concrete positive threshold — the
immediate empty result with no gateway call. -/
theorem C7_curate_filter_witness :
    curate sqrtOne curOracleDiscard pbEx freshEx 0 [insightNoConf]
        { minConfidence := some 1 } =
      .ok ({ operations := []
             summary := "No insights met the confidence threshold"
             statistics := { adds := 0, updates := 0, deletes := 0 } },
           0, 0) :=
  (C7_curate_filter sqrtOne curOracleDiscard pbEx freshEx 0 [insightNoConf]
    { minConfidence := some 1 }).2.1 (by decide) (by decide)

/-- C8, counterexample: an ADD missing its bullet is *kept* (normalized
to a bare `{type: ADD}` operation), not dropped — the parsed operation
list keeps its length. -/
theorem C8_counterexample :
    (parseOperations "" (some [rawAddNoBullet]) freshEx 0).length = 1 ∧
    parseOperations "" (some [rawAddNoBullet]) freshEx 0 =
      [{ type := .ADD }] := by
  constructor <;> decide

/-- C8 (amended).  `validateOperation` normalizes: an ADD carrying a
bullet gets `id || uuid`, `section || 'General'`, `content || ''` and
zeroed default metadata under the bullet's metadata spread; an UPDATE
with a truthy bulletId gets `updates || {}`; a DELETE with a truthy
bulletId keeps it; and an operation missing the required fields for its
type is *returned as a bare `{type}` operation* — `parseOperations`
maps the validator over the array and drops nothing, so the claim's
"dropped from the resulting operation list" is false. -/
theorem C8_validateOperation_spec :
    (∀ (gid : String) (now : Nat) (op : RawOperation),
      (∀ rb, op.type = .ADD → op.bullet = some rb →
        validateOperation gid now op =
          { type := .ADD
            bullet := some
              { id := jsOrOptStr rb.id gid
                sectionName := jsOrOptStr rb.sectionName "General"
                content := jsOrOptStr rb.content ""
                metadata := mergeMeta
                  { created := now, helpful_count := 0, harmful_count := 0 }
                  (rb.metadata.getD {}) } }) ∧
      (op.type = .UPDATE → optStrTruthy op.bulletId = true →
        validateOperation gid now op =
          { type := .UPDATE, bulletId := op.bulletId
            updates := some (op.updates.getD {}) }) ∧
      (op.type = .DELETE → optStrTruthy op.bulletId = true →
        validateOperation gid now op =
          { type := .DELETE, bulletId := op.bulletId }) ∧
      (¬(op.type = .ADD ∧ op.bullet.isSome = true) →
       ¬(op.type = .UPDATE ∧ optStrTruthy op.bulletId = true) →
       ¬(op.type = .DELETE ∧ optStrTruthy op.bulletId = true) →
        validateOperation gid now op = { type := op.type })) ∧
    (∀ (raw : String) (ops : List RawOperation) (fresh : Nat → String)
       (now : Nat),
      (parseOperations raw (some ops) fresh now).length = ops.length) := by
  constructor
  · intro gid now op
    refine ⟨?_, ?_, ?_, ?_⟩
    · intro rb hty hb
      simp [validateOperation, hty, hb]
    · intro hty htr
      have hne : ¬(op.type = .ADD ∧ op.bullet.isSome = true) := by
        rw [hty]; simp
      simp [validateOperation, hne, hty, htr]
    · intro hty htr
      have hne : ¬(op.type = .ADD ∧ op.bullet.isSome = true) := by
        rw [hty]; simp
      have hne2 : ¬(op.type = .UPDATE ∧ optStrTruthy op.bulletId = true) := by
        rw [hty]; simp
      simp [validateOperation, hne, hne2, hty, htr]
    · intro h1 h2 h3
      simp [validateOperation, h1, h2, h3]
  · intro raw ops fresh now
    simp [parseOperations]

/-- C8, witness: an ADD without an id gets the generated id, the default
section and zeroed metadata. -/
theorem C8_validateOperation_spec_witness :
    validateOperation "g" 0 rawAddNoId =
      { type := .ADD
        bullet := some
          { id := jsOrOptStr none "g"
            sectionName := jsOrOptStr (some "T") "General"
            content := jsOrOptStr (some "new guidance") ""
            metadata := mergeMeta
              { created := 0, helpful_count := 0, harmful_count := 0 }
              ((none : Option MetadataOverride).getD {}) } } :=
  (C8_validateOperation_spec.1 "g" 0 rawAddNoId).1
    { sectionName := some "T", content := some "new guidance" } rfl rfl

theorem generatorLe_trans (ps : List String) (a b c : Bullet)
    (h1 : generatorLe ps a b = true) (h2 : generatorLe ps b c = true) :
    generatorLe ps a c = true := by
  simp only [generatorLe, Bool.or_eq_true, Bool.and_eq_true,
    decide_eq_true_eq] at h1 h2 ⊢
  rcases h1 with h1 | ⟨h1a, h1b⟩ <;> rcases h2 with h2 | ⟨h2a, h2b⟩
  · exact .inl (lt_trans h2 h1)
  · exact .inl (by rw [← h2a]; exact h1)
  · exact .inl (by rw [h1a]; exact h2)
  · refine .inr ⟨h1a.trans h2a, ?_⟩
    rcases h1b with h1 | ⟨h1c, h1d⟩ <;> rcases h2b with h2 | ⟨h2c, h2d⟩
    · exact .inl (lt_trans h2 h1)
    · exact .inl (by rw [← h2c]; exact h1)
    · exact .inl (by rw [h1c]; exact h2)
    · exact .inr ⟨h1c.trans h2c, le_trans h2d h1d⟩

theorem generatorLe_total (ps : List String) (a b : Bullet) :
    (generatorLe ps a b || generatorLe ps b a) = true := by
  simp only [generatorLe, Bool.or_eq_true, Bool.and_eq_true,
    decide_eq_true_eq]
  rcases lt_trichotomy (generatorKey ps a).1 (generatorKey ps b).1 with h | h | h
  · exact .inr (.inl h)
  · rcases lt_trichotomy (generatorKey ps a).2.1 (generatorKey ps b).2.1 with
      h2 | h2 | h2
    · exact .inr (.inr ⟨h.symm, .inl h2⟩)
    · rcases le_total (generatorKey ps b).2.2 (generatorKey ps a).2.2 with
        h3 | h3
      · exact .inl (.inr ⟨h, .inr ⟨h2, h3⟩⟩)
      · exact .inr (.inr ⟨h.symm, .inr ⟨h2.symm, h3⟩⟩)
    · exact .inl (.inr ⟨h, .inl h2⟩)
  · exact .inl (.inl h)

/-- C9 (amended).  `generate` throws on every blank query; it selects at
most `options.maxBullets || 20` bullets — the *effective* bound: an
explicit `maxBullets = 0` falls back to 20, so the claim "at most
options.maxBullets" fails at 0 (see the counterexample) — and the
selection is the stable descending sort by (priority-section
membership, helpfulness ratio, last-used recency): the selected list is
pairwise ordered by that key, drawn from the store, and equal-key
bullets keep their insertion order through the sort.  A successful
`generate` uses exactly the ids of that selection. -/
theorem C9_generator_selection :
    (∀ (pb : Playbook) (chat : Except Unit String) (q : String)
       (opts : GenerationOptions) (now : Nat),
       jsTrim q = "" → generate pb chat q opts now = .error .emptyQuery) ∧
    (∀ (pb : Playbook) (opts : GenerationOptions),
       (selectBullets pb opts).length ≤ jsOrNat opts.maxBullets 20) ∧
    (∀ (pb : Playbook) (opts : GenerationOptions),
       (selectBulletsFull pb opts).Pairwise
         (fun a b => generatorLe (opts.prioritySections.getD []) a b = true) ∧
       ∀ b ∈ selectBulletsFull pb opts, b ∈ pb.bullets) ∧
    (∀ (ps : List String) (l : List Bullet) (a b : Bullet),
       [a, b].Sublist l → generatorLe ps a b = true →
       [a, b].Sublist (l.mergeSort (generatorLe ps))) ∧
    (∀ (pb : Playbook) (chat : Except Unit String) (q : String)
       (opts : GenerationOptions) (now : Nat) (t : Trajectory) (pb' : Playbook),
       generate pb chat q opts now = .ok (t, pb') →
       t.bullets_used = (selectBullets pb opts).map (fun b => b.id)) := by
  refine ⟨?_, ?_, ?_, ?_, ?_⟩
  · intro pb chat q opts now h
    simp [generate, h]
  · intro pb opts
    simp only [selectBullets, selectBulletsFull, List.length_map]
    split
    · simp
    · simp only [List.length_take]
      exact min_le_left _ _
  · intro pb opts
    constructor
    · simp only [selectBulletsFull]
      split
      · simp
      · exact List.Pairwise.sublist (List.take_sublist _ _)
          (List.sorted_mergeSort (generatorLe_trans _) (generatorLe_total _) _)
    · intro b hb
      simp only [selectBulletsFull] at hb
      split at hb
      · cases hb
      · have h1 := List.mem_of_mem_take hb
        exact (List.mergeSort_perm pb.bullets _).mem_iff.mp h1
  · intro ps l a b hab hle
    exact List.sublist_mergeSort (generatorLe_trans ps) (generatorLe_total ps)
      (by simp [hle]) hab
  · intro pb chat q opts now t pb' h
    rw [generate] at h
    split at h
    · exact absurd h (by simp)
    · cases chat with
      | error e => exact absurd h (by simp)
      | ok resp =>
        simp only [Except.ok.injEq, Prod.mk.injEq] at h
        rw [← h.1]

/-- C9, counterexample: with one stored bullet and the explicit option
`maxBullets = 0`, `generate` still selects that bullet (`0 || 20 = 20`),
violating "at most options.maxBullets bullets". -/
theorem C9_counterexample :
    (generate pbOne (.ok "resp") "q" { maxBullets := some 0 } 0).toOption.map
      (fun r => r.1.bullets_used) = some ["b1"] := by
  simp +decide [generate, selectBullets, selectBulletsFull, pbOne, bEx1,
    metaEx, jsTrim, jsTrimChars, jsOrNat, extractBulletTracking,
    findTrackingSection, jsToLowerChars, updateBulletFeedback]

/-- C9, witness: the blank-query failure at a concrete call. -/
theorem C9_generator_selection_witness :
    generate pbOne (.ok "resp") "   " { } 0 = .error .emptyQuery :=
  C9_generator_selection.1 pbOne (.ok "resp") "   " { } 0 (by decide)

theorem mapSet_append_of_not_mem {l : List Bullet} {b : Bullet}
    (h : b.id ∉ l.map (fun x => x.id)) : mapSet l b = l ++ [b] := by
  induction l with
  | nil => rfl
  | cons x xs ih =>
    simp only [List.map_cons, List.mem_cons] at h
    push_neg at h
    rw [mapSet, if_neg (fun hc => h.1 hc.symm), ih h.2]
    rfl

theorem import_foldl_eq :
    ∀ (bs acc : List Bullet),
      (∀ b ∈ bs, ImportValid b) →
      (bs.map (fun b => b.id)).Nodup →
      (∀ b ∈ bs, b.id ∉ acc.map (fun x => x.id)) →
      bs.foldl (fun acc b =>
        if b.id = "" ∨ b.sectionName = "" ∨ b.content = "" then acc
        else mapSet acc b) acc = acc ++ bs := by
  intro bs
  induction bs with
  | nil => intro acc _ _ _; simp
  | cons b rest ih =>
    intro acc hvalid hnodup hdisj
    have hv := hvalid b (List.mem_cons_self _ _)
    rw [List.foldl_cons,
      if_neg (by rintro (h | h | h) <;> [exact hv.1 h; exact hv.2.1 h; exact hv.2.2 h]),
      mapSet_append_of_not_mem (hdisj b (List.mem_cons_self _ _))]
    rw [List.map_cons, List.nodup_cons] at hnodup
    rw [ih (acc ++ [b]) (fun x hx => hvalid x (List.mem_cons_of_mem _ hx))
      hnodup.2 ?_]
    · simp
    · intro x hx
      simp only [List.map_append, List.mem_append, List.map_cons]
      rintro (hc | hc)
      · exact hdisj x (List.mem_cons_of_mem _ hx) hc
      · simp only [List.map_nil, List.mem_cons, List.not_mem_nil, or_false]
          at hc
        exact hnodup.1 (hc ▸ List.mem_map_of_mem (fun y => y.id) hx)

/-- C10 (amended).  `import` replaces the collection: the resulting
store holds exactly the structurally valid entries of the argument —
every surviving bullet comes from the argument and has a non-empty id,
section and content — and nothing stored before the call survives (the
result is independent of the prior bullet list).  The round-trip
`import(export())` restores the store exactly *when every stored bullet
is structurally valid* (with the map's distinct ids); it silently drops
stored bullets with an empty id, section or content, which are
reachable through `applyDeltas` ADDs — see the counterexample. -/
theorem C10_import_spec :
    (∀ (pb : Playbook) (bs : List Bullet) (x : Bullet),
       x ∈ (importBullets pb bs).bullets → x ∈ bs ∧ ImportValid x) ∧
    (∀ (pb pb' : Playbook) (bs : List Bullet),
       (importBullets pb bs).bullets = (importBullets pb' bs).bullets) ∧
    (∀ pb : Playbook,
       (∀ b ∈ pb.bullets, ImportValid b) →
       (pb.bullets.map (fun b => b.id)).Nodup →
       importBullets pb (exportBullets pb) = pb) := by
  have import_fold_mem :
      ∀ (bs acc : List Bullet) (x : Bullet),
        x ∈ bs.foldl (fun acc b =>
          if b.id = "" ∨ b.sectionName = "" ∨ b.content = "" then acc
          else mapSet acc b) acc →
        x ∈ acc ∨ (x ∈ bs ∧ ImportValid x) := by
    intro bs
    induction bs with
    | nil => intro acc x hx; exact .inl hx
    | cons b rest ih =>
      intro acc x hx
      rw [List.foldl_cons] at hx
      split at hx
      · rcases ih _ x hx with h | h
        · exact .inl h
        · exact .inr ⟨List.mem_cons_of_mem _ h.1, h.2⟩
      · rename_i hval
        push_neg at hval
        rcases ih _ x hx with h | h
        · rcases mem_mapSet h with h' | h'
          · exact .inl h'
          · subst h'
            exact .inr ⟨List.mem_cons_self _ _, hval.1, hval.2.1, hval.2.2⟩
        · exact .inr ⟨List.mem_cons_of_mem _ h.1, h.2⟩
  refine ⟨?_, ?_, ?_⟩
  · intro pb bs x hx
    simp only [importBullets] at hx
    rcases import_fold_mem bs [] x hx with h | h
    · cases h
    · exact h
  · intro pb pb' bs
    rfl
  · intro pb hvalid hnodup
    simp only [importBullets, exportBullets]
    rw [import_foldl_eq pb.bullets [] hvalid hnodup (by simp)]
    rw [List.nil_append]

/-- C10, counterexample: a store holding one bullet with empty content
(reachable via an `applyDeltas` ADD) does not survive the
`import(export())` round trip — the bullet is silently dropped. -/
theorem C10_counterexample :
    pbBlank.bullets = [blankBullet] ∧ blankBullet.content = "" ∧
    (importBullets pbBlank (exportBullets pbBlank)).bullets = [] := by
  refine ⟨by decide, rfl, by decide⟩

/-- C10, witness: the round trip restores a concrete valid store. -/
theorem C10_import_spec_witness :
    importBullets pbTwo (exportBullets pbTwo) = pbTwo :=
  C10_import_spec.2.2 pbTwo (by decide) (by decide)

end ACE
